import Mathlib

/-!
# Collaboration lifecycle of `procrast-in-hate-api`

A shallow embedding of the route handlers of `src/routes/projects.js` and
`src/routes/users.js`.

* Object identifiers (`ObjectId`) are natural numbers. An identifier that a request
  carries as a string, and that a handler compares with `_id.toString()`, is an
  `IdParam`: the `ObjectId` it parses to, and whether it is spelled the way
  `toString()` spells that `ObjectId`.
* A JavaScript `Date` is `JsDate`: either the invalid date (whose `getTime()` is
  `NaN`) or a millisecond timestamp.
* A request field that is tested with `!field` is an `Option` (dates) or a `String`
  whose empty value is the falsy one (titles, labels).
* A handler is a function from the store (and the request) to the response and the
  store after the request.
-/

namespace ProcrastInHate

/-! ## Data model -/

/-- A JavaScript `Date` value: `new Date(x)` is either invalid or a timestamp. -/
inductive JsDate where
  | invalid : JsDate
  | valid (ms : Int) : JsDate
  deriving DecidableEq, Repr

/-- The value of `getTime()`: `none` stands for `NaN`. -/
def JsDate.getTime : JsDate → Option Int
  | .invalid => none
  | .valid ms => some ms

/-- JavaScript `a > b` on two `getTime()` results: false as soon as one is `NaN`. -/
def jsGt : Option Int → Option Int → Bool
  | some a, some b => decide (b < a)
  | _, _ => false

/-- JavaScript `a < b` on two `getTime()` results: false as soon as one is `NaN`. -/
def jsLt : Option Int → Option Int → Bool
  | some a, some b => decide (a < b)
  | _, _ => false

/-- An identifier as a request carries it, a string of the URL or of the body. `oid`
is the value of `ObjectId(id)` on it, and `canonical` says whether the string is the
one `toString()` gives for that `ObjectId` (24 lower-case hexadecimal digits). The
same digits in upper case parse to the same `ObjectId` and are not canonical. -/
structure IdParam where
  oid : Nat
  canonical : Bool
  deriving DecidableEq, Repr

/-- The canonical spelling of an identifier, the one `toString()` gives. -/
def IdParam.lower (oid : Nat) : IdParam :=
  ⟨oid, true⟩

/-- The spelling of an identifier with its hexadecimal digits in upper case, for an
identifier that has a letter among its digits: it parses to the same `ObjectId` and is
not the string `toString()` gives. -/
def IdParam.upper (oid : Nat) : IdParam :=
  ⟨oid, false⟩

/-- The test `_id.toString() === id` of a stored identifier against the string of the
request: true when the string is canonical and names the same `ObjectId`. -/
def sameString (_id : Nat) (id : IdParam) : Bool :=
  id.canonical && _id == id.oid

/-- An element of a `collaborators` array: `{ _id, accepted }`. -/
structure Membership where
  _id : Nat
  accepted : Bool
  deriving DecidableEq, Repr

/-- The `dates` object of a project or task. -/
structure Dates where
  start : JsDate
  end_ : JsDate
  create : JsDate
  deriving DecidableEq, Repr

/-- A document of the `users` collection (credentials left out). -/
structure User where
  _id : Nat
  name : String
  deriving DecidableEq, Repr

/-- A document of the `projects` collection, as `PUT /projects` builds it. -/
structure Project where
  _id : Nat
  title : String
  description : String
  dates : Dates
  label : String
  creatorId : Nat
  collaborators : List Membership
  completed : Bool
  deriving DecidableEq, Repr

/-- A document of the `tasks` collection, with the fields the handlers read. -/
structure Task where
  _id : Nat
  title : String
  creatorId : Nat
  projectId : Nat
  dates : Dates
  completed : Bool
  status : String
  collaborators : List Membership
  deriving DecidableEq, Repr

/-- The three collections imported from `utils/database.js`. -/
structure Store where
  users : List User
  projects : List Project
  tasks : List Task
  deriving DecidableEq, Repr

/-- The body sent with `res.status(..).json({ message })`. -/
structure Response where
  status : Nat
  message : String
  deriving DecidableEq, Repr

/-! ## The document store

Modelled from the spec: the collections exported by `utils/database.js`, with the
interface of section 6 (`findOne`, `find`, `insertOne`, `updateOne` returning
`modifiedCount`, `updateMany`, `deleteMany`). A collection is the list of its
documents in insertion order; `modifiedCount` counts the documents the update
really changed. -/

/-- Modelled from the spec: `findOne(filter)` of the document store of
`utils/database.js`, the first document that matches or `null`. -/
def findOne {α : Type} (q : α → Bool) (docs : List α) : Option α :=
  docs.find? q

/-- Modelled from the spec: `find(filter).toArray()` of the document store of
`utils/database.js`, the matching documents in order. -/
def find {α : Type} (q : α → Bool) (docs : List α) : List α :=
  docs.filter q

/-- Modelled from the spec: `updateOne(filter, patch)` of the document store of
`utils/database.js`. The first matching document is patched; the second component
is `modifiedCount`, which is `0` when nothing matches or the patch changes nothing. -/
def updateOne {α : Type} [DecidableEq α] (q : α → Bool) (patch : α → α) :
    List α → List α × Nat
  | [] => ([], 0)
  | d :: ds =>
    if q d then (patch d :: ds, if patch d = d then 0 else 1)
    else ((d :: (updateOne q patch ds).1), (updateOne q patch ds).2)

/-- Modelled from the spec: `updateMany(filter, patch)` of the document store of
`utils/database.js`, every matching document is patched. -/
def updateMany {α : Type} (q : α → Bool) (patch : α → α) (docs : List α) : List α :=
  docs.map (fun d => if q d then patch d else d)

/-- Modelled from the spec: `deleteMany(filter)` of the document store of
`utils/database.js`, every matching document is removed. -/
def deleteMany {α : Type} (q : α → Bool) (docs : List α) : List α :=
  docs.filter (fun d => !q d)

/-- The update operator `$pull: { collaborators: { _id } }` on an array. -/
def pull (userId : Nat) (collaborators : List Membership) : List Membership :=
  collaborators.filter (fun c => !(c._id == userId))

/-- JavaScript `Array.prototype.findIndex`; `none` stands for `-1`. -/
def findIndex {α : Type} (q : α → Bool) : List α → Option Nat
  | [] => none
  | x :: xs => if q x then some 0 else (findIndex q xs).map (· + 1)

/-- The assignment `collaborators[index].accepted = true`. -/
def setAccepted : List Membership → Nat → List Membership
  | [], _ => []
  | c :: cs, 0 => { c with accepted := true } :: cs
  | c :: cs, i + 1 => c :: setAccepted cs i

/-- The call `collaborators.splice(index, 1)`. -/
def splice : List Membership → Nat → List Membership
  | [], _ => []
  | _ :: cs, 0 => cs
  | c :: cs, i + 1 => c :: splice cs i

/-! ## `src/routes/projects.js` -/

/-- The body of `PUT /projects`. A date field is `none` when it is absent or empty
(`!dates.start`), otherwise the value of `new Date(..)` on it. -/
structure NewProject where
  title : String
  description : String
  start : Option JsDate
  end_ : Option JsDate
  label : String
  creatorId : Nat
  collaborators : List Nat
  deriving DecidableEq, Repr

/-- The handler `PUT /projects` (create a project). `newId` is the identifier the
store gives the inserted document and `now` the clock read by `new Date()`. -/
def createProject (s : Store) (newId : Nat) (now : Int) (body : NewProject) :
    Response × Store :=
  match body.start, body.end_ with
  | some start, some end_ =>
    if body.title = "" ∨ body.description = "" ∨ body.label = "" then
      (⟨400, "Please provide all the fields"⟩, s)
    else if jsGt start.getTime end_.getTime then
      (⟨400, "Start date cannot be after end date"⟩, s)
    else if body.collaborators.any
        (fun collaborator => (findOne (fun u => u._id == collaborator) s.users).isNone) then
      (⟨404, "User does not exist"⟩, s)
    else
      let newProject : Project :=
        { _id := newId
          title := body.title
          description := body.description
          dates := { start := start, end_ := end_, create := .valid now }
          label := body.label
          creatorId := body.creatorId
          collaborators :=
            { _id := body.creatorId, accepted := true } ::
              body.collaborators.map (fun collaborator =>
                { _id := collaborator, accepted := false })
          completed := false }
      (⟨201, "Project created successfully"⟩, { s with projects := s.projects ++ [newProject] })
  | _, _ => (⟨400, "Please provide all the fields"⟩, s)

/-- The handler `PUT /projects/:id` (update title, description and label). -/
def edit (s : Store) (id : Nat) (title description label : String) : Response × Store :=
  match findOne (fun p => p._id == id) s.projects with
  | none => (⟨404, "Project does not exist"⟩, s)
  | some project =>
    if project.completed then (⟨400, "Project is already completed"⟩, s)
    else if title = "" ∨ description = "" ∨ label = "" then
      (⟨400, "Please provide all the fields"⟩, s)
    else
      let result := updateOne (fun p => p._id == id)
        (fun p => { p with title := title, description := description, label := label })
        s.projects
      if result.2 ≠ 0 then
        (⟨200, "Project updated successfully"⟩, { s with projects := result.1 })
      else (⟨500, "Something went wrong"⟩, { s with projects := result.1 })

/-- The handler `PATCH /projects/:id/:completed` (set the completion flag). -/
def setCompletion (s : Store) (id : Nat) (completed : String) : Response × Store :=
  match findOne (fun p => p._id == id) s.projects with
  | none => (⟨404, "Project does not exist"⟩, s)
  | some _ =>
    let result := updateOne (fun p => p._id == id)
      (fun p => { p with completed := decide (completed = "true") }) s.projects
    let tasks :=
      if completed = "true" then
        updateMany (fun t => t.projectId == id) (fun t => { t with completed := true }) s.tasks
      else s.tasks
    if result.2 ≠ 0 then
      (⟨200, "Project updated successfully"⟩, { s with projects := result.1, tasks := tasks })
    else (⟨500, "Something went wrong"⟩, { s with projects := result.1, tasks := tasks })

/-- The handler `PUT /projects/:id/collaborators` (invite a user). The duplicate test
compares strings with the `collaboratorId` of the body; the user lookup and the
pushed entry go through `ObjectId(collaboratorId)`. -/
def addCollaborator (s : Store) (id : Nat) (collaboratorId : IdParam) : Response × Store :=
  match findOne (fun p => p._id == id) s.projects with
  | none => (⟨404, "Project does not exist"⟩, s)
  | some project =>
    if project.completed then (⟨400, "Project is already completed"⟩, s)
    else if project.collaborators.any
        (fun collaborator => sameString collaborator._id collaboratorId) then
      (⟨400, "Collaborator already added"⟩, s)
    else
      match findOne (fun u => u._id == collaboratorId.oid) s.users with
      | none => (⟨404, "User does not exist"⟩, s)
      | some _ =>
        let result := updateOne (fun p => p._id == id)
          (fun p => { p with collaborators :=
            p.collaborators ++ [{ _id := collaboratorId.oid, accepted := false }] })
          s.projects
        if result.2 ≠ 0 then
          (⟨200, "Collaborator added successfully"⟩, { s with projects := result.1 })
        else (⟨500, "Something went wrong"⟩, { s with projects := result.1 })

/-- The handler `DELETE /projects/:id/collaborators/:collaboratorId`. -/
def removeCollaborator (s : Store) (id : Nat) (collaboratorId : Nat) : Response × Store :=
  match findOne (fun p => p._id == id) s.projects with
  | none => (⟨404, "Project does not exist"⟩, s)
  | some project =>
    if project.completed then (⟨400, "Project is already completed"⟩, s)
    else
      let result := updateOne (fun p => p._id == id)
        (fun p => { p with collaborators := pull collaboratorId p.collaborators }) s.projects
      let tasks := deleteMany
        (fun t => t.projectId == id && t.creatorId == collaboratorId) s.tasks
      let tasks := updateMany (fun t => t.projectId == id)
        (fun t => { t with collaborators := pull collaboratorId t.collaborators }) tasks
      if result.2 ≠ 0 then
        (⟨200, "Collaborator removed successfully"⟩,
          { s with projects := result.1, tasks := tasks })
      else (⟨500, "Something went wrong"⟩, { s with projects := result.1, tasks := tasks })

/-- The loop of `PATCH /projects/:id/dates/:type` over the tasks of the project: the
response of the first task that makes it return, if any. -/
def dateLoop (type : String) (date : JsDate) : List Task → Option Response
  | [] => none
  | task :: rest =>
    if type = "start" ∧ jsGt date.getTime task.dates.start.getTime then
      some ⟨400, "Project cannot start after a task has started"⟩
    else if type = "end" ∧ jsLt date.getTime task.dates.end_.getTime then
      some ⟨400, "Project cannot end before a task has ended"⟩
    else dateLoop type date rest

/-- The update of the field named by the computed key of the set operator, with
`type` one of `start` and `end`. -/
def setDateField (type : String) (date : JsDate) (p : Project) : Project :=
  if type = "start" then { p with dates := { p.dates with start := date } }
  else { p with dates := { p.dates with end_ := date } }

/-- The handler `PATCH /projects/:id/dates/:type`. `date` is `none` when the body
has no date (`!date`), otherwise the value of `new Date(date)`. -/
def setDate (s : Store) (id : Nat) (type : String) (date : Option JsDate) :
    Response × Store :=
  match findOne (fun p => p._id == id) s.projects with
  | none => (⟨404, "Project does not exist"⟩, s)
  | some project =>
    if project.completed then (⟨400, "Project is already completed"⟩, s)
    else
      match date with
      | none => (⟨400, "Please provide a date"⟩, s)
      | some date =>
        if type ≠ "start" ∧ type ≠ "end" then (⟨400, "Invalid date type"⟩, s)
        else
          match dateLoop type date (find (fun t => t.projectId == id) s.tasks) with
          | some response => (response, s)
          | none =>
            let result := updateOne (fun p => p._id == id) (setDateField type date) s.projects
            if result.2 ≠ 0 then
              (⟨200, "Date updated successfully"⟩, { s with projects := result.1 })
            else (⟨500, "Something went wrong"⟩, { s with projects := result.1 })

/-- The loops of `GET /projects/user/:userId` that fill `userProjects`. -/
def userProjectsLoop (userId : IdParam)
    (userCreatedProjects userAssignedProjects : List Project) : List Project :=
  let userProjects := userCreatedProjects.foldl (fun acc project => acc ++ [project]) []
  userAssignedProjects.foldl
    (fun acc project =>
      if !(acc.any (fun userProject => userProject._id == project._id)) then
        if project.collaborators.any
            (fun collaborator => sameString collaborator._id userId && collaborator.accepted) then
          acc ++ [project]
        else acc
      else acc)
    userProjects

/-- The handler `GET /projects/user/:userId`: the error response, or the array sent
with status 200. The three queries go through `ObjectId(userId)`; the test of the
accepted entry in the loop compares strings. -/
def projectsForUser (s : Store) (userId : IdParam) : Except Response (List Project) :=
  match findOne (fun u => u._id == userId.oid) s.users with
  | none => .error ⟨404, "User does not exist"⟩
  | some _ =>
    let userCreatedProjects := find (fun p => p.creatorId == userId.oid) s.projects
    let userAssignedProjects :=
      find (fun p => p.collaborators.any (fun c => c._id == userId.oid)) s.projects
    .ok (userProjectsLoop userId userCreatedProjects userAssignedProjects)

/-- The loops of `GET /projects/:id/tasks/:userId` that fill `userTasks`. -/
def userTasksLoop (userCreatedTasks userAssignedTasks : List Task) : List Task :=
  let userTasks := userCreatedTasks.foldl (fun acc task => acc ++ [task]) []
  userAssignedTasks.foldl
    (fun acc task =>
      if !(acc.any (fun userTask => userTask._id == task._id)) then acc ++ [task] else acc)
    userTasks

/-- The handler `GET /projects/:id/tasks/:userId`: the error response, or the array
sent with status 200. Both filters compare strings with `userId`. -/
def tasksForUser (s : Store) (id : Nat) (userId : IdParam) : Except Response (List Task) :=
  match findOne (fun p => p._id == id) s.projects with
  | none => .error ⟨404, "Project does not exist"⟩
  | some _ =>
    let projectTasks := find (fun t => t.projectId == id) s.tasks
    let userCreatedTasks := projectTasks.filter (fun task => sameString task.creatorId userId)
    let userAssignedTasks := projectTasks.filter
      (fun task => task.collaborators.any
        (fun collaborator => sameString collaborator._id userId))
    .ok (userTasksLoop userCreatedTasks userAssignedTasks)

/-- A JavaScript number as far as `GET /projects/:id/progress` can produce one: `NaN`,
or a finite value, kept as the exact quotient the double stands for. -/
inductive JsNumber where
  | nan : JsNumber
  | infinity : JsNumber
  | finite (q : ℚ) : JsNumber
  deriving DecidableEq

/-- JavaScript `a / b` on two array lengths. -/
def jsDiv (a b : Nat) : JsNumber :=
  if b = 0 then (if a = 0 then .nan else .infinity) else .finite ((a : ℚ) / (b : ℚ))

/-- JavaScript `x * 100`. -/
def jsTimes100 : JsNumber → JsNumber
  | .nan => .nan
  | .infinity => .infinity
  | .finite q => .finite (q * 100)

/-- The handler `GET /projects/:id/progress`: it always answers with status 200 and
the value of `progress`. -/
def projectProgress (s : Store) (id : Nat) : Nat × JsNumber :=
  let projectTasks := find (fun t => t.projectId == id) s.tasks
  let completedTasks := projectTasks.filter (fun task => task.status == "completed")
  let progress := jsTimes100 (jsDiv completedTasks.length projectTasks.length)
  (200, progress)

/-! ## `src/routes/users.js` -/

/-- The `authentication` object of a live connection. -/
structure Authentication where
  _id : Nat
  serviceWorker : Bool
  deriving DecidableEq, Repr

/-- An element of `connections` (`utils/webSocketClientHandler.js`): who is
authenticated on it and the socket `ws`, named by a number. -/
structure Connection where
  authentication : Authentication
  ws : Nat
  deriving DecidableEq, Repr

/-- The two records pushed on a socket. -/
inductive WireMessage where
  | updateData : WireMessage
  | notification (message : String) : WireMessage
  deriving DecidableEq, Repr

/-- One call `connection.ws.send(data)`. -/
structure Sent where
  ws : Nat
  data : WireMessage
  deriving DecidableEq, Repr

/-- The fields of the found project or task that the invitation handlers read. -/
structure Invitation where
  title : String
  collaborators : List Membership
  deriving DecidableEq, Repr

/-- The lookup `(type === 'task' ? tasks : projects).findOne({ _id })`. -/
def findInvitation (s : Store) (type : String) (invitationId : Nat) : Option Invitation :=
  if type = "task" then
    (findOne (fun t => t._id == invitationId) s.tasks).map
      (fun t => { title := t.title, collaborators := t.collaborators })
  else
    (findOne (fun p => p._id == invitationId) s.projects).map
      (fun p => { title := p.title, collaborators := p.collaborators })

/-- The write `(type === 'task' ? tasks : projects).updateOne({ _id }, { $set:
{ collaborators } })`: the store after it and `modifiedCount`. -/
def setCollaborators (s : Store) (type : String) (invitationId : Nat)
    (collaborators : List Membership) : Store × Nat :=
  if type = "task" then
    let result := updateOne (fun t => t._id == invitationId)
      (fun t => { t with collaborators := collaborators }) s.tasks
    ({ s with tasks := result.1 }, result.2)
  else
    let result := updateOne (fun p => p._id == invitationId)
      (fun p => { p with collaborators := collaborators }) s.projects
    ({ s with projects := result.1 }, result.2)

/-- The notification loop of the accept and decline handlers: every connection whose
user has an accepted entry in `collaborators` is sent the update signal and then the
message. -/
def notifyLoop (connections : List Connection) (collaborators : List Membership)
    (message : String) : List Sent :=
  connections.flatMap (fun connection =>
    if collaborators.any (fun collaborator =>
        collaborator._id == connection.authentication._id && collaborator.accepted) then
      [{ ws := connection.ws, data := .updateData },
       { ws := connection.ws, data := .notification message }]
    else [])

/-- The test `collaborators[index].accepted`. -/
def acceptedAt (collaborators : List Membership) (index : Nat) : Bool :=
  match collaborators[index]? with
  | some collaborator => collaborator.accepted
  | none => false

/-- The handler `POST /users/:id/invitations/:type/:invitationId` (accept): the
response, the store after the request and the messages sent, in order. The user lookup
goes through `ObjectId(id)`; the search of the entry compares strings with `id`. -/
def accept (connections : List Connection) (s : Store) (id : IdParam) (type : String)
    (invitationId : Nat) : Response × Store × List Sent :=
  match findOne (fun u => u._id == id.oid) s.users with
  | none => (⟨404, "User not found"⟩, s, [])
  | some user =>
    match findInvitation s type invitationId with
    | none => (⟨404, "Invitation not found"⟩, s, [])
    | some invitation =>
      match findIndex (fun collaborator => sameString collaborator._id id)
          invitation.collaborators with
      | none => (⟨400, "User not invited"⟩, s, [])
      | some index =>
        if acceptedAt invitation.collaborators index then
          (⟨400, "User already accepted"⟩, s, [])
        else
          let collaborators := setAccepted invitation.collaborators index
          let result := setCollaborators s type invitationId collaborators
          if result.2 = 1 then
            (⟨200, "Invitation accepted"⟩, result.1,
              notifyLoop connections collaborators
                (user.name ++ " has accepted the invitation to collaborate on " ++
                  invitation.title))
          else (⟨500, "Failed to accept invitation"⟩, result.1, [])

/-- The handler `DELETE /users/:id/invitations/:type/:invitationId` (decline): the
response, the store after the request and the messages sent, in order. The user lookup
goes through `ObjectId(id)`; the search of the entry compares strings with `id`. -/
def decline (connections : List Connection) (s : Store) (id : IdParam) (type : String)
    (invitationId : Nat) : Response × Store × List Sent :=
  match findOne (fun u => u._id == id.oid) s.users with
  | none => (⟨404, "User not found"⟩, s, [])
  | some user =>
    match findInvitation s type invitationId with
    | none => (⟨404, "Invitation not found"⟩, s, [])
    | some invitation =>
      match findIndex (fun collaborator => sameString collaborator._id id)
          invitation.collaborators with
      | none => (⟨400, "User not invited"⟩, s, [])
      | some index =>
        if acceptedAt invitation.collaborators index then
          (⟨400, "User already accepted"⟩, s, [])
        else
          let collaborators := splice invitation.collaborators index
          let result := setCollaborators s type invitationId collaborators
          if result.2 = 1 then
            (⟨200, "Invitation declined"⟩, result.1,
              notifyLoop connections collaborators
                (user.name ++ " has declined the invitation to collaborate on " ++
                  invitation.title))
          else (⟨500, "Failed to decline invitation"⟩, result.1, [])

/-- An element of the array sent by `GET /users/:id/invitations`: a task or a project
document with the `type` field the handler adds to it. -/
structure InvitationItem where
  type : String
  doc : Task ⊕ Project
  deriving DecidableEq

/-- The `dates` object of the task or project. -/
def InvitationItem.dates (item : InvitationItem) : Dates :=
  match item.doc with
  | .inl task => task.dates
  | .inr project => project.dates

/-- The identifier of the task or project. -/
def InvitationItem.docId (item : InvitationItem) : Nat :=
  match item.doc with
  | .inl task => task._id
  | .inr project => project._id

/-- The collaborator list of the task or project. -/
def InvitationItem.collaborators (item : InvitationItem) : List Membership :=
  match item.doc with
  | .inl task => task.collaborators
  | .inr project => project.collaborators

/-- The property `crete` of a `dates` object. No document has it (the handlers write
`start`, `end` and `create`), so reading it gives `undefined`, here `none`. -/
def Dates.crete (_ : Dates) : Option JsDate :=
  none

/-- The call `new Date(x)` on a stored date or on `undefined` (`none`), which gives
the invalid date. -/
def newDate : Option JsDate → JsDate
  | some d => d
  | none => .invalid

/-- JavaScript `a - b` on two dates, through their `getTime()`: `NaN` (`none`) as soon
as one of them is `NaN`. -/
def jsMinus : Option Int → Option Int → Option Int
  | some a, some b => some (a - b)
  | _, _ => none

/-- The comparator of the sort in `GET /users/:id/invitations`, as written:
`new Date(b.dates.crete) - new Date(a.dates.create)`. -/
def invitationCompare (a b : InvitationItem) : Option Int :=
  jsMinus (newDate b.dates.crete).getTime (newDate (some a.dates.create)).getTime

/-- One insertion of the stable sort: `x` goes before the first element that the
comparator puts after it. A comparator result `NaN` (`none`) counts as `+0`. -/
def sortInsert {α : Type} (comparefn : α → α → Option Int) (x : α) : List α → List α
  | [] => [x]
  | y :: ys =>
    if 0 < (comparefn y x).getD 0 then x :: y :: ys
    else y :: sortInsert comparefn x ys

/-- JavaScript `Array.prototype.sort(comparefn)`: a stable sort in which a comparator
result `NaN` is taken as `+0`, here by insertion from the left. -/
def jsSort {α : Type} (comparefn : α → α → Option Int) (items : List α) : List α :=
  items.foldl (fun sorted x => sortInsert comparefn x sorted) []

/-- The filter `{ collaborators: { $elemMatch: { _id, accepted: false } } }`. -/
def elemMatchPending (id : Nat) (collaborators : List Membership) : Bool :=
  collaborators.any (fun c => c._id == id && !c.accepted)

/-- The handler `GET /users/:id/invitations`: it always answers with status 200 and
the sorted array. -/
def listInvitations (s : Store) (id : Nat) : Nat × List InvitationItem :=
  let taskInvitations : List InvitationItem :=
    (find (fun t => elemMatchPending id t.collaborators) s.tasks).map
      (fun task => { type := "task", doc := .inl task })
  let projectInvitations : List InvitationItem :=
    (find (fun p => elemMatchPending id p.collaborators) s.projects).map
      (fun project => { type := "project", doc := .inr project })
  let invitations := taskInvitations ++ projectInvitations
  let sorted := jsSort invitationCompare invitations
  (200, sorted)

/-! ## Sequences of project operations -/

/-- A request to one of the project operations. -/
inductive Op where
  | createProject (newId : Nat) (now : Int) (body : NewProject) : Op
  | edit (id : Nat) (title description label : String) : Op
  | addCollaborator (id : Nat) (collaboratorId : IdParam) : Op
  | removeCollaborator (id collaboratorId : Nat) : Op
  | setCompletion (id : Nat) (completed : String) : Op
  | setDate (id : Nat) (type : String) (date : Option JsDate) : Op
  | accept (connections : List Connection) (id : IdParam) (type : String)
      (invitationId : Nat) : Op
  | decline (connections : List Connection) (id : IdParam) (type : String)
      (invitationId : Nat) : Op

/-- The store after a request. -/
def Op.run (s : Store) : Op → Store
  | .createProject newId now body => (ProcrastInHate.createProject s newId now body).2
  | .edit id title description label => (ProcrastInHate.edit s id title description label).2
  | .addCollaborator id collaboratorId => (ProcrastInHate.addCollaborator s id collaboratorId).2
  | .removeCollaborator id collaboratorId => (ProcrastInHate.removeCollaborator s id collaboratorId).2
  | .setCompletion id completed => (ProcrastInHate.setCompletion s id completed).2
  | .setDate id type date => (ProcrastInHate.setDate s id type date).2
  | .accept connections id type invitationId => (ProcrastInHate.accept connections s id type invitationId).2.1
  | .decline connections id type invitationId => (ProcrastInHate.decline connections s id type invitationId).2.1

/-- The creator of the project has an accepted entry in its `collaborators`. -/
def hasCreator (p : Project) : Bool :=
  p.collaborators.any (fun c => c._id == p.creatorId && c.accepted)

/-- Every project of the store has its creator as an accepted collaborator. -/
def creatorsAccepted (s : Store) : Bool :=
  s.projects.all hasCreator

/-- The request is not the removal, from a project, of that project's own creator. -/
def Op.sparesCreator (s : Store) : Op → Bool
  | .removeCollaborator id collaboratorId =>
    match findOne (fun p => p._id == id) s.projects with
    | some project => !(project.creatorId == collaboratorId)
    | none => true
  | _ => true

/-- The states reached from a store without projects by project operations. Users and
tasks are created by other routes, so they may change freely between two requests. -/
inductive Reachable : Store → Prop where
  | init (users : List User) (tasks : List Task) : Reachable ⟨users, [], tasks⟩
  | env {s : Store} (users : List User) (tasks : List Task) :
      Reachable s → Reachable { s with users := users, tasks := tasks }
  | step {s : Store} (op : Op) : Reachable s → Reachable (op.run s)

/-- The states reached as in `Reachable`, by requests that never remove a project's
creator from that project. -/
inductive ReachableSparing : Store → Prop where
  | init (users : List User) (tasks : List Task) : ReachableSparing ⟨users, [], tasks⟩
  | env {s : Store} (users : List User) (tasks : List Task) :
      ReachableSparing s → ReachableSparing { s with users := users, tasks := tasks }
  | step {s : Store} (op : Op) :
      ReachableSparing s → op.sparesCreator s = true → ReachableSparing (op.run s)

/-! ## Definitions used by the statements

The predicates in which the properties are stated, and the stores and requests of
the examples. -/

/-- A store with the single user 1 and no project. -/
def c1Initial : Store := ⟨[⟨1, "ann"⟩], [], []⟩

/-- The creation of project 10 by user 1, without invited collaborators. -/
def c1Create : Op :=
  .createProject 10 0
    { title := "t", description := "d", start := some (.valid 0), end_ := some (.valid 1),
      label := "l", creatorId := 1, collaborators := [] }

/-- A store whose project 10 is completed and has the task 20. -/
def c2Store : Store :=
  { users := [⟨1, "ann"⟩, ⟨2, "bob"⟩]
    projects :=
      [{ _id := 10, title := "t", description := "d",
         dates := { start := .valid 0, end_ := .valid 9, create := .valid 0 },
         label := "l", creatorId := 1,
         collaborators := [⟨1, true⟩, ⟨2, false⟩], completed := true }]
    tasks :=
      [{ _id := 20, title := "k", creatorId := 2, projectId := 10,
         dates := { start := .valid 1, end_ := .valid 2, create := .valid 1 },
         completed := true, status := "open", collaborators := [⟨2, true⟩] }] }

/-- A store whose open project 10 was created by user 1 and has user 2 invited, with
the task 20 of user 2 in it, to which user 1 is invited. -/
def c3Store : Store :=
  { users := [⟨1, "ann"⟩, ⟨2, "bob"⟩]
    projects :=
      [{ _id := 10, title := "t", description := "d",
         dates := { start := .valid 0, end_ := .valid 9, create := .valid 0 },
         label := "l", creatorId := 1,
         collaborators := [⟨1, true⟩, ⟨2, false⟩], completed := false }]
    tasks :=
      [{ _id := 20, title := "k", creatorId := 2, projectId := 10,
         dates := { start := .valid 1, end_ := .valid 2, create := .valid 1 },
         completed := false, status := "open", collaborators := [⟨2, true⟩, ⟨1, false⟩] }] }

/-- The store after user 1 created project 10 and named user 1 among the invited
collaborators. -/
def c3Duplicate : Store :=
  (createProject c1Initial 10 0
    { title := "t", description := "d", start := some (.valid 0), end_ := some (.valid 1),
      label := "l", creatorId := 1, collaborators := [1] }).2

/-- The store `c3Store` after user 1 created project 11 and invited user 2 twice. -/
def c4Duplicate : Store :=
  (createProject c3Store 11 0
    { title := "t", description := "d", start := some (.valid 0), end_ := some (.valid 1),
      label := "l", creatorId := 1, collaborators := [2, 2] }).2

/-- A store whose open project 10 has only its creator, user 1, as collaborator. -/
def c5Store : Store :=
  { users := [⟨1, "ann"⟩, ⟨2, "bob"⟩]
    projects :=
      [{ _id := 10, title := "t", description := "d",
         dates := { start := .valid 0, end_ := .valid 9, create := .valid 0 },
         label := "l", creatorId := 1, collaborators := [⟨1, true⟩], completed := false }]
    tasks := [] }

/-- The two answers of the date handler that report a conflict with a task. -/
def isDateConflict (r : Response) : Bool :=
  r == ⟨400, "Project cannot start after a task has started"⟩ ||
    r == ⟨400, "Project cannot end before a task has ended"⟩

/-- The nesting rule in the words of the specification: some task under the project
starts strictly before the new start `d`, or ends strictly after the new end `d`. -/
def NestingConflict (s : Store) (id : Nat) (kind : String) (d : Int) : Prop :=
  ∃ task ∈ s.tasks, task.projectId = id ∧
    ((kind = "start" ∧ ∃ ts, task.dates.start = .valid ts ∧ ts < d) ∨
      (kind = "end" ∧ ∃ te, task.dates.end_ = .valid te ∧ d < te))

/-- The connections of the users that have an accepted entry in the list. -/
def audience (connections : List Connection) (collaborators : List Membership) :
    List Connection :=
  connections.filter (fun connection =>
    collaborators.any (fun m => m._id == connection.authentication._id && m.accepted))

/-- The two sends to one connection: the update signal, then the notification. -/
def pushTo (message : String) (connection : Connection) : List Sent :=
  [{ ws := connection.ws, data := .updateData },
   { ws := connection.ws, data := .notification message }]

/-- Four live connections: user 1, user 2, a service client of user 1, and user 3. -/
def c7Connections : List Connection :=
  [⟨⟨1, false⟩, 100⟩, ⟨⟨2, false⟩, 101⟩, ⟨⟨1, true⟩, 102⟩, ⟨⟨3, false⟩, 103⟩]

/-- A store with two projects: under project 10, task 20 created by user 2 and task 21
created by user 1 with users 2 and 3 on it; under project 11, task 22 created by
user 2. -/
def c9Store : Store :=
  { users := [⟨1, "ann"⟩, ⟨2, "bob"⟩, ⟨3, "cy"⟩]
    projects :=
      [{ _id := 10, title := "t", description := "d",
         dates := { start := .valid 0, end_ := .valid 9, create := .valid 0 },
         label := "l", creatorId := 1,
         collaborators := [⟨1, true⟩, ⟨2, true⟩, ⟨3, true⟩], completed := false },
       { _id := 11, title := "t2", description := "d2",
         dates := { start := .valid 0, end_ := .valid 9, create := .valid 1 },
         label := "l", creatorId := 2,
         collaborators := [⟨2, true⟩], completed := false }]
    tasks :=
      [{ _id := 20, title := "k", creatorId := 2, projectId := 10,
         dates := { start := .valid 1, end_ := .valid 2, create := .valid 1 },
         completed := false, status := "open", collaborators := [⟨2, true⟩] },
       { _id := 21, title := "m", creatorId := 1, projectId := 10,
         dates := { start := .valid 1, end_ := .valid 2, create := .valid 2 },
         completed := false, status := "completed",
         collaborators := [⟨1, true⟩, ⟨2, true⟩, ⟨3, false⟩] },
       { _id := 22, title := "n", creatorId := 2, projectId := 11,
         dates := { start := .valid 1, end_ := .valid 2, create := .valid 3 },
         completed := false, status := "open", collaborators := [⟨2, true⟩] }] }

/-- The comparator the specification describes for the invitation list: the creation
time of `b` minus the creation time of `a`, which sorts by creation time, descending. -/
def createdDescending (a b : InvitationItem) : Option Int :=
  jsMinus b.dates.create.getTime a.dates.create.getTime

/-- A store in which user 2 has three pending invitations: to task 20 (created at 3),
to project 10 (created at 1) and to project 11 (created at 5). -/
def c11Store : Store :=
  { users := [⟨1, "ann"⟩, ⟨2, "bob"⟩]
    projects :=
      [{ _id := 10, title := "t", description := "d",
         dates := { start := .valid 0, end_ := .valid 9, create := .valid 1 },
         label := "l", creatorId := 1,
         collaborators := [⟨1, true⟩, ⟨2, false⟩], completed := false },
       { _id := 11, title := "t2", description := "d2",
         dates := { start := .valid 0, end_ := .valid 9, create := .valid 5 },
         label := "l", creatorId := 1,
         collaborators := [⟨1, true⟩, ⟨2, false⟩], completed := false }]
    tasks :=
      [{ _id := 20, title := "k", creatorId := 1, projectId := 10,
         dates := { start := .valid 1, end_ := .valid 2, create := .valid 3 },
         completed := false, status := "open", collaborators := [⟨1, true⟩, ⟨2, false⟩] }] }

/-- The request that moves the start of project 10 to 5. -/
def c12SetStart : Op :=
  .setDate 10 "start" (some (.valid 5))

/-! ## Lemmas on the store primitives -/

theorem mem_updateOne {α : Type} [DecidableEq α] (q : α → Bool) (patch : α → α)
    (docs : List α) (x : α) (h : x ∈ (updateOne q patch docs).1) :
    x ∈ docs ∨ ∃ y, findOne q docs = some y ∧ x = patch y := by
  induction docs with
  | nil => simp [updateOne] at h
  | cons d ds ih =>
    unfold updateOne at h
    by_cases hq : q d = true
    · rw [if_pos hq] at h
      rcases List.mem_cons.mp h with h | h
      · exact Or.inr ⟨d, by simp [findOne, List.find?, hq], h⟩
      · exact Or.inl (List.mem_cons_of_mem _ h)
    · rw [if_neg hq] at h
      rcases List.mem_cons.mp h with h | h
      · exact Or.inl (h ▸ List.mem_cons_self _ _)
      · rcases ih h with h | ⟨y, hy, hx⟩
        · exact Or.inl (List.mem_cons_of_mem _ h)
        · refine Or.inr ⟨y, ?_, hx⟩
          simpa [findOne, List.find?, hq] using hy

theorem updateOne_all {α : Type} [DecidableEq α] (q : α → Bool) (patch : α → α)
    (docs : List α) (P : α → Prop) (hdocs : ∀ x ∈ docs, P x)
    (hpatch : ∀ y, findOne q docs = some y → P (patch y)) :
    ∀ x ∈ (updateOne q patch docs).1, P x := by
  intro x hx
  rcases mem_updateOne q patch docs x hx with h | ⟨y, hy, rfl⟩
  · exact hdocs x h
  · exact hpatch y hy

theorem findOne_mem {α : Type} (q : α → Bool) (docs : List α) (y : α)
    (h : findOne q docs = some y) : y ∈ docs :=
  List.mem_of_find?_eq_some h

/-! ## The creator's membership -/

theorem any_setAccepted (k : Nat) (l : List Membership) (i : Nat)
    (h : l.any (fun c => c._id == k && c.accepted) = true) :
    (setAccepted l i).any (fun c => c._id == k && c.accepted) = true := by
  induction l generalizing i with
  | nil => simp at h
  | cons c cs ih =>
    cases i with
    | zero =>
      simp only [setAccepted, List.any_cons, Bool.or_eq_true, Bool.and_eq_true] at h ⊢
      rcases h with h | h
      · exact Or.inl ⟨h.1, trivial⟩
      · exact Or.inr h
    | succ i =>
      simp only [setAccepted, List.any_cons, Bool.or_eq_true] at h ⊢
      rcases h with h | h
      · exact Or.inl h
      · exact Or.inr (ih i h)

theorem any_splice (k : Nat) (l : List Membership) (i : Nat)
    (hi : acceptedAt l i = false)
    (h : l.any (fun c => c._id == k && c.accepted) = true) :
    (splice l i).any (fun c => c._id == k && c.accepted) = true := by
  induction l generalizing i with
  | nil => simp at h
  | cons c cs ih =>
    cases i with
    | zero =>
      simp only [acceptedAt, List.getElem?_cons_zero] at hi
      simp only [splice, List.any_cons, Bool.or_eq_true, Bool.and_eq_true] at h ⊢
      rcases h with h | h
      · rw [hi] at h; exact absurd h.2 (by decide)
      · exact h
    | succ i =>
      simp only [acceptedAt, List.getElem?_cons_succ] at hi
      simp only [splice, List.any_cons, Bool.or_eq_true] at h ⊢
      rcases h with h | h
      · exact Or.inl h
      · exact Or.inr (ih i hi h)

theorem any_pull (k u : Nat) (l : List Membership) (hku : k ≠ u)
    (h : l.any (fun c => c._id == k && c.accepted) = true) :
    (pull u l).any (fun c => c._id == k && c.accepted) = true := by
  simp only [pull, List.any_eq_true, List.mem_filter, Bool.and_eq_true, beq_iff_eq,
    Bool.not_eq_true', beq_eq_false_iff_ne] at h ⊢
  obtain ⟨c, hc, hk, ha⟩ := h
  exact ⟨c, ⟨hc, by omega⟩, hk, ha⟩

theorem findInvitation_project (s : Store) (type : String) (invitationId : Nat)
    (invitation : Invitation) (ht : type ≠ "task")
    (h : findInvitation s type invitationId = some invitation) :
    ∃ p, findOne (fun p => p._id == invitationId) s.projects = some p ∧
      invitation = { title := p.title, collaborators := p.collaborators } := by
  simp only [findInvitation, if_neg ht, Option.map_eq_some'] at h
  obtain ⟨p, hp, rfl⟩ := h
  exact ⟨p, hp, rfl⟩

theorem findInvitation_task (s : Store) (type : String) (invitationId : Nat)
    (invitation : Invitation) (ht : type = "task")
    (h : findInvitation s type invitationId = some invitation) :
    ∃ t, findOne (fun t => t._id == invitationId) s.tasks = some t ∧
      invitation = { title := t.title, collaborators := t.collaborators } := by
  simp only [findInvitation, if_pos ht, Option.map_eq_some'] at h
  obtain ⟨t, hp, rfl⟩ := h
  exact ⟨t, hp, rfl⟩

/-- The projects after `setCollaborators`: untouched, or the found project with the
new list. -/
theorem setCollaborators_projects (s : Store) (type : String) (invitationId : Nat)
    (collaborators : List Membership) (x : Project)
    (h : x ∈ (setCollaborators s type invitationId collaborators).1.projects) :
    x ∈ s.projects ∨ (type ≠ "task" ∧
      ∃ y, findOne (fun p => p._id == invitationId) s.projects = some y ∧
        x = { y with collaborators := collaborators }) := by
  unfold setCollaborators at h
  by_cases ht : type = "task"
  · rw [if_pos ht] at h; exact Or.inl h
  · rw [if_neg ht] at h
    rcases mem_updateOne _ _ _ _ h with h | ⟨y, hy, hx⟩
    · exact Or.inl h
    · exact Or.inr ⟨ht, y, hy, hx⟩

theorem accept_hasCreator (connections : List Connection) (s : Store) (id : IdParam)
    (type : String) (invitationId : Nat) (hs : ∀ p ∈ s.projects, hasCreator p = true) :
    ∀ p ∈ (accept connections s id type invitationId).2.1.projects, hasCreator p = true := by
  unfold accept
  split
  · exact hs
  · split
    · exact hs
    · rename_i invitation hinv
      split
      · exact hs
      · rename_i index hidx
        split
        · exact hs
        · have key : ∀ p ∈ (setCollaborators s type invitationId
              (setAccepted invitation.collaborators index)).1.projects, hasCreator p = true := by
            intro p hp
            rcases setCollaborators_projects _ _ _ _ _ hp with hp | ⟨ht, y, hy, rfl⟩
            · exact hs p hp
            · obtain ⟨y', hy', rfl⟩ := findInvitation_project s type invitationId _ ht hinv
              rw [hy] at hy'
              cases hy'
              exact any_setAccepted _ _ _ (hs y (findOne_mem _ _ _ hy))
          dsimp only
          split <;> exact key

theorem decline_hasCreator (connections : List Connection) (s : Store) (id : IdParam)
    (type : String) (invitationId : Nat) (hs : ∀ p ∈ s.projects, hasCreator p = true) :
    ∀ p ∈ (decline connections s id type invitationId).2.1.projects, hasCreator p = true := by
  unfold decline
  split
  · exact hs
  · split
    · exact hs
    · rename_i invitation hinv
      split
      · exact hs
      · rename_i index hidx
        split
        · exact hs
        · rename_i hacc
          have key : ∀ p ∈ (setCollaborators s type invitationId
              (splice invitation.collaborators index)).1.projects, hasCreator p = true := by
            intro p hp
            rcases setCollaborators_projects _ _ _ _ _ hp with hp | ⟨ht, y, hy, rfl⟩
            · exact hs p hp
            · obtain ⟨y', hy', rfl⟩ := findInvitation_project s type invitationId _ ht hinv
              rw [hy] at hy'
              cases hy'
              exact any_splice _ _ _ (by simpa using hacc) (hs y (findOne_mem _ _ _ hy))
          dsimp only
          split <;> exact key

theorem createProject_hasCreator (s : Store) (newId : Nat) (now : Int) (body : NewProject)
    (hs : ∀ p ∈ s.projects, hasCreator p = true) :
    ∀ p ∈ (createProject s newId now body).2.projects, hasCreator p = true := by
  unfold createProject
  split
  · split
    · exact hs
    · split
      · exact hs
      · split
        · exact hs
        · intro p hp
          simp only [List.mem_append, List.mem_singleton] at hp
          rcases hp with hp | rfl
          · exact hs p hp
          · simp [hasCreator]
  · exact hs

theorem edit_hasCreator (s : Store) (id : Nat) (title description label : String)
    (hs : ∀ p ∈ s.projects, hasCreator p = true) :
    ∀ p ∈ (edit s id title description label).2.projects, hasCreator p = true := by
  unfold edit
  split
  · exact hs
  · split
    · exact hs
    · split
      · exact hs
      · have key := updateOne_all (fun p => p._id == id)
          (fun p => { p with title := title, description := description, label := label })
          s.projects (fun p => hasCreator p = true) hs
          (fun y hy => hs y (findOne_mem _ _ _ hy))
        dsimp only
        split <;> exact key

theorem setCompletion_hasCreator (s : Store) (id : Nat) (completed : String)
    (hs : ∀ p ∈ s.projects, hasCreator p = true) :
    ∀ p ∈ (setCompletion s id completed).2.projects, hasCreator p = true := by
  unfold setCompletion
  split
  · exact hs
  · have key := updateOne_all (fun p => p._id == id)
      (fun p => { p with completed := decide (completed = "true") })
      s.projects (fun p => hasCreator p = true) hs
      (fun y hy => hs y (findOne_mem _ _ _ hy))
    dsimp only
    split <;> exact key

theorem addCollaborator_hasCreator (s : Store) (id : Nat) (collaboratorId : IdParam)
    (hs : ∀ p ∈ s.projects, hasCreator p = true) :
    ∀ p ∈ (addCollaborator s id collaboratorId).2.projects, hasCreator p = true := by
  unfold addCollaborator
  split
  · exact hs
  · split
    · exact hs
    · split
      · exact hs
      · split
        · exact hs
        · have key := updateOne_all (fun p => p._id == id)
            (fun p => { p with collaborators :=
              p.collaborators ++ [{ _id := collaboratorId.oid, accepted := false }] })
            s.projects (fun p => hasCreator p = true) hs
            (fun y hy => by
              have := hs y (findOne_mem _ _ _ hy)
              simp only [hasCreator, List.any_append, Bool.or_eq_true] at this ⊢
              exact Or.inl this)
          dsimp only
          split <;> exact key

theorem setDate_hasCreator (s : Store) (id : Nat) (type : String) (date : Option JsDate)
    (hs : ∀ p ∈ s.projects, hasCreator p = true) :
    ∀ p ∈ (setDate s id type date).2.projects, hasCreator p = true := by
  unfold setDate
  split
  · exact hs
  · split
    · exact hs
    · split
      · exact hs
      · rename_i d
        split
        · exact hs
        · split
          · exact hs
          · have key := updateOne_all (fun p => p._id == id) (setDateField type d)
              s.projects (fun p => hasCreator p = true) hs
              (fun y hy => by
                have := hs y (findOne_mem _ _ _ hy)
                unfold setDateField
                split <;> exact this)
            dsimp only
            split <;> exact key

theorem removeCollaborator_hasCreator (s : Store) (id collaboratorId : Nat)
    (hs : ∀ p ∈ s.projects, hasCreator p = true)
    (hop : (Op.removeCollaborator id collaboratorId).sparesCreator s = true) :
    ∀ p ∈ (removeCollaborator s id collaboratorId).2.projects, hasCreator p = true := by
  unfold removeCollaborator
  split
  · exact hs
  · rename_i project hproject
    split
    · exact hs
    · have key := updateOne_all (fun p => p._id == id)
        (fun p => { p with collaborators := pull collaboratorId p.collaborators })
        s.projects (fun p => hasCreator p = true) hs
        (fun y hy => by
          have hy' := hs y (findOne_mem _ _ _ hy)
          simp only [Op.sparesCreator, hy, Bool.not_eq_true', beq_eq_false_iff_ne] at hop
          exact any_pull _ _ _ hop hy')
      dsimp only
      split <;> exact key

/-- Every request that spares the creators keeps "every project has its creator as
an accepted collaborator". -/
theorem run_hasCreator (s : Store) (op : Op) (hs : ∀ p ∈ s.projects, hasCreator p = true)
    (hop : op.sparesCreator s = true) : ∀ p ∈ (op.run s).projects, hasCreator p = true := by
  cases op with
  | createProject newId now body => exact createProject_hasCreator s newId now body hs
  | edit id title description label => exact edit_hasCreator s id title description label hs
  | addCollaborator id collaboratorId => exact addCollaborator_hasCreator s id collaboratorId hs
  | removeCollaborator id collaboratorId =>
    exact removeCollaborator_hasCreator s id collaboratorId hs hop
  | setCompletion id completed => exact setCompletion_hasCreator s id completed hs
  | setDate id type date => exact setDate_hasCreator s id type date hs
  | accept connections id type invitationId =>
    exact accept_hasCreator connections s id type invitationId hs
  | decline connections id type invitationId =>
    exact decline_hasCreator connections s id type invitationId hs

/-! ## C1: the creator's membership along sequences of operations -/

/-- C1, amended: in every state reached from a store without projects by project
operations (createProject, edit, addCollaborator, removeCollaborator, setCompletion,
setDate, accept, decline) among which no removeCollaborator names the creator of the
project it is applied to, every project has an entry of its creator with accepted = true
in its collaborator list. -/
theorem creator_membership_invariant (s : Store) (h : ReachableSparing s) :
    ∀ p ∈ s.projects, ∃ c ∈ p.collaborators, c._id = p.creatorId ∧ c.accepted = true := by
  have key : ∀ p ∈ s.projects, hasCreator p = true := by
    induction h with
    | init users tasks => intro p hp; simp at hp
    | env users tasks _ ih => exact ih
    | step op _ hop ih => exact run_hasCreator _ op ih hop
  intro p hp
  have := key p hp
  simpa [hasCreator] using this

/-- C1, witness: after user 1 created project 10 the invariant holds of it. -/
theorem creator_membership_invariant_witness :
    ReachableSparing (c1Create.run c1Initial) ∧
      ∀ p ∈ (c1Create.run c1Initial).projects,
        ∃ c ∈ p.collaborators, c._id = p.creatorId ∧ c.accepted = true :=
  ⟨ReachableSparing.step c1Create (ReachableSparing.init _ _) rfl,
    creator_membership_invariant _
      (ReachableSparing.step c1Create (ReachableSparing.init _ _) rfl)⟩

/-- C1, counterexample: user 1 creates project 10 and is then removed from it by
removeCollaborator, which answers 200; the state is reachable and the project no
longer has an accepted entry of its creator. -/
theorem creator_membership_counterexample :
    Reachable ((Op.removeCollaborator 10 1).run (c1Create.run c1Initial)) ∧
      (removeCollaborator (c1Create.run c1Initial) 10 1).1 =
        ⟨200, "Collaborator removed successfully"⟩ ∧
      ((Op.removeCollaborator 10 1).run (c1Create.run c1Initial)).projects =
        [{ _id := 10, title := "t", description := "d",
           dates := { start := .valid 0, end_ := .valid 1, create := .valid 0 },
           label := "l", creatorId := 1, collaborators := [], completed := false }] ∧
      creatorsAccepted ((Op.removeCollaborator 10 1).run (c1Create.run c1Initial)) = false :=
  ⟨Reachable.step _ (Reachable.step _ (Reachable.init _ _)), by decide, by decide, by decide⟩

/-! ## C2: a completed project is locked -/

/-- C2: on an existing project whose completed flag is set, edit, addCollaborator,
removeCollaborator and setDate answer 400 "Project is already completed" whatever the
rest of the request is, and the store (the project and its tasks included) is the
same after the request. -/
theorem completed_project_locked (s : Store) (id : Nat) (project : Project)
    (hfound : findOne (fun p => p._id == id) s.projects = some project)
    (hcompleted : project.completed = true) :
    (∀ title description label,
      edit s id title description label = (⟨400, "Project is already completed"⟩, s)) ∧
    (∀ collaboratorId,
      addCollaborator s id collaboratorId = (⟨400, "Project is already completed"⟩, s)) ∧
    (∀ collaboratorId,
      removeCollaborator s id collaboratorId = (⟨400, "Project is already completed"⟩, s)) ∧
    (∀ type date, setDate s id type date = (⟨400, "Project is already completed"⟩, s)) := by
  refine ⟨?_, ?_, ?_, ?_⟩
  · intro title description label
    simp only [edit, hfound, hcompleted, if_true]
  · intro collaboratorId
    simp only [addCollaborator, hfound, hcompleted, if_true]
  · intro collaboratorId
    simp only [removeCollaborator, hfound, hcompleted, if_true]
  · intro type date
    simp only [setDate, hfound, hcompleted, if_true]

/-- C2, witness: the completed project 10 of `c2Store`. -/
theorem completed_project_locked_witness :
    (∀ title description label,
      edit c2Store 10 title description label =
        (⟨400, "Project is already completed"⟩, c2Store)) ∧
    (∀ collaboratorId,
      addCollaborator c2Store 10 collaboratorId =
        (⟨400, "Project is already completed"⟩, c2Store)) ∧
    (∀ collaboratorId,
      removeCollaborator c2Store 10 collaboratorId =
        (⟨400, "Project is already completed"⟩, c2Store)) ∧
    (∀ type date,
      setDate c2Store 10 type date = (⟨400, "Project is already completed"⟩, c2Store)) :=
  completed_project_locked c2Store 10 _ rfl rfl

/-! ## Lemmas on the invitation handlers -/

theorem updateOne_count {α : Type} [DecidableEq α] (q : α → Bool) (patch : α → α)
    (docs : List α) (y : α) (h : findOne q docs = some y) :
    (updateOne q patch docs).2 = if patch y = y then 0 else 1 := by
  induction docs with
  | nil => simp [findOne] at h
  | cons d ds ih =>
    unfold updateOne
    by_cases hq : q d = true
    · simp only [findOne, List.find?, hq, Option.some.injEq] at h
      subst h
      rw [if_pos hq]
    · rw [if_neg hq]
      have h' : findOne q ds = some y := by
        simpa [findOne, List.find?, hq] using h
      exact ih h'

theorem findOne_updateOne {α : Type} [DecidableEq α] (q : α → Bool) (patch : α → α)
    (docs : List α) (y : α) (h : findOne q docs = some y) (hq : q (patch y) = true) :
    findOne q (updateOne q patch docs).1 = some (patch y) := by
  induction docs with
  | nil => simp [findOne] at h
  | cons d ds ih =>
    unfold updateOne
    by_cases hd : q d = true
    · simp only [findOne, List.find?, hd, Option.some.injEq] at h
      subst h
      rw [if_pos hd]
      simp [findOne, List.find?, hq]
    · rw [if_neg hd]
      have h' : findOne q ds = some y := by
        simpa [findOne, List.find?, hd] using h
      have := ih h'
      simpa [findOne, List.find?, hd] using this

theorem findOne_sat {α : Type} (q : α → Bool) (docs : List α) (y : α)
    (h : findOne q docs = some y) : q y = true :=
  List.find?_some h

theorem findIndex_spec {α : Type} (q : α → Bool) (l : List α) (i : Nat)
    (h : findIndex q l = some i) : ∃ c, l[i]? = some c ∧ q c = true := by
  induction l generalizing i with
  | nil => simp [findIndex] at h
  | cons x xs ih =>
    unfold findIndex at h
    by_cases hq : q x = true
    · rw [if_pos hq] at h
      cases h
      exact ⟨x, by simp, hq⟩
    · rw [if_neg hq] at h
      simp only [Option.map_eq_some'] at h
      obtain ⟨j, hj, rfl⟩ := h
      obtain ⟨c, hc, hqc⟩ := ih j hj
      exact ⟨c, by simpa using hc, hqc⟩

theorem findIndex_none {α : Type} (q : α → Bool) (l : List α) :
    findIndex q l = none ↔ ∀ c ∈ l, q c = false := by
  induction l with
  | nil => simp [findIndex]
  | cons x xs ih =>
    unfold findIndex
    by_cases hq : q x = true
    · simp [hq]
    · simp only [if_neg hq, Option.map_eq_none', ih, List.mem_cons, forall_eq_or_imp]
      simp only [Bool.not_eq_true] at hq
      simp [hq]

theorem sameString_true (x : Nat) (id : IdParam) (h : sameString x id = true) :
    x = id.oid ∧ id.canonical = true := by
  simp only [sameString, Bool.and_eq_true, beq_iff_eq] at h
  exact ⟨h.2, h.1⟩

theorem sameString_canonical (id : IdParam) (h : id.canonical = true) :
    (fun c : Membership => sameString c._id id) = fun c => c._id == id.oid := by
  funext c
  simp [sameString, h]

theorem sameString_not_canonical (x : Nat) (id : IdParam) (h : id.canonical = false) :
    sameString x id = false := by
  simp [sameString, h]

theorem findIndex_setAccepted (id : IdParam) (l : List Membership) (i : Nat) :
    findIndex (fun c => sameString c._id id) (setAccepted l i) =
      findIndex (fun c => sameString c._id id) l := by
  induction l generalizing i with
  | nil => rfl
  | cons c cs ih =>
    cases i with
    | zero => simp [setAccepted, findIndex]
    | succ i => simp [setAccepted, findIndex, ih]

theorem acceptedAt_setAccepted (l : List Membership) (i : Nat) (h : i < l.length) :
    acceptedAt (setAccepted l i) i = true := by
  induction l generalizing i with
  | nil => simp at h
  | cons c cs ih =>
    cases i with
    | zero => simp [setAccepted, acceptedAt]
    | succ i =>
      have := ih i (by simpa using h)
      simpa [setAccepted, acceptedAt] using this

theorem setAccepted_eq_set (id : IdParam) (l : List Membership) (i : Nat)
    (h : findIndex (fun c => sameString c._id id) l = some i) :
    setAccepted l i = l.set i ⟨id.oid, true⟩ := by
  induction l generalizing i with
  | nil => simp [findIndex] at h
  | cons c cs ih =>
    unfold findIndex at h
    by_cases hq : sameString c._id id = true
    · rw [if_pos hq] at h
      cases h
      have hc := (sameString_true _ _ hq).1
      simp [setAccepted, ← hc]
    · rw [if_neg hq] at h
      simp only [Option.map_eq_some'] at h
      obtain ⟨j, hj, rfl⟩ := h
      simp [setAccepted, ih j hj]

theorem setAccepted_ne (l : List Membership) (i : Nat) (h : i < l.length)
    (hacc : acceptedAt l i = false) : setAccepted l i ≠ l := by
  intro heq
  have := acceptedAt_setAccepted l i h
  rw [heq, hacc] at this
  exact absurd this (by decide)

theorem splice_eq_eraseIdx (l : List Membership) (i : Nat) : splice l i = l.eraseIdx i := by
  induction l generalizing i with
  | nil => cases i <;> rfl
  | cons c cs ih =>
    cases i with
    | zero => rfl
    | succ i => simp [splice, ih]

theorem splice_ne (l : List Membership) (i : Nat) (h : i < l.length) : splice l i ≠ l := by
  intro heq
  have := congrArg List.length heq
  rw [splice_eq_eraseIdx, List.length_eraseIdx] at this
  simp only [h, if_true] at this
  omega

theorem findIndex_lt {α : Type} (q : α → Bool) (l : List α) (i : Nat)
    (h : findIndex q l = some i) : i < l.length := by
  obtain ⟨c, hc, _⟩ := findIndex_spec q l i h
  by_contra hlt
  rw [List.getElem?_eq_none (by omega)] at hc
  cases hc

theorem setCollaborators_users (s : Store) (type : String) (invitationId : Nat)
    (collaborators : List Membership) :
    (setCollaborators s type invitationId collaborators).1.users = s.users := by
  unfold setCollaborators
  split <;> rfl

theorem setCollaborators_count (s : Store) (type : String) (invitationId : Nat)
    (collaborators : List Membership) (invitation : Invitation)
    (h : findInvitation s type invitationId = some invitation)
    (hne : collaborators ≠ invitation.collaborators) :
    (setCollaborators s type invitationId collaborators).2 = 1 := by
  by_cases ht : type = "task"
  · obtain ⟨t, hfound, rfl⟩ := findInvitation_task s type invitationId _ ht h
    simp only [setCollaborators, if_pos ht]
    rw [updateOne_count _ _ _ t hfound, if_neg]
    intro heq
    exact hne (congrArg Task.collaborators heq)
  · obtain ⟨p, hfound, rfl⟩ := findInvitation_project s type invitationId _ ht h
    simp only [setCollaborators, if_neg ht]
    rw [updateOne_count _ _ _ p hfound, if_neg]
    intro heq
    exact hne (congrArg Project.collaborators heq)

theorem findInvitation_setCollaborators (s : Store) (type : String) (invitationId : Nat)
    (collaborators : List Membership) (invitation : Invitation)
    (h : findInvitation s type invitationId = some invitation) :
    findInvitation (setCollaborators s type invitationId collaborators).1 type invitationId =
      some { title := invitation.title, collaborators := collaborators } := by
  by_cases ht : type = "task"
  · obtain ⟨t, hfound, rfl⟩ := findInvitation_task s type invitationId _ ht h
    have hq : (t._id == invitationId) = true :=
      findOne_sat (fun t : Task => t._id == invitationId) _ _ hfound
    simp only [setCollaborators, findInvitation, if_pos ht]
    rw [findOne_updateOne _ _ _ t hfound hq]
    rfl
  · obtain ⟨p, hfound, rfl⟩ := findInvitation_project s type invitationId _ ht h
    have hq : (p._id == invitationId) = true :=
      findOne_sat (fun p : Project => p._id == invitationId) _ _ hfound
    simp only [setCollaborators, findInvitation, if_neg ht]
    rw [findOne_updateOne _ _ _ p hfound hq]
    rfl

/-- What accept answers and does when the first entry of the user is pending. -/
theorem accept_pending (connections : List Connection) (s : Store) (id : IdParam)
    (type : String)
    (invitationId : Nat) (user : User) (invitation : Invitation) (index : Nat)
    (huser : findOne (fun u => u._id == id.oid) s.users = some user)
    (hinv : findInvitation s type invitationId = some invitation)
    (hidx : findIndex (fun c => sameString c._id id) invitation.collaborators = some index)
    (hacc : acceptedAt invitation.collaborators index = false) :
    accept connections s id type invitationId =
      (⟨200, "Invitation accepted"⟩,
        (setCollaborators s type invitationId (setAccepted invitation.collaborators index)).1,
        notifyLoop connections (setAccepted invitation.collaborators index)
          (user.name ++ " has accepted the invitation to collaborate on " ++
            invitation.title)) := by
  have hcount := setCollaborators_count s type invitationId
    (setAccepted invitation.collaborators index) invitation hinv
    (setAccepted_ne _ _ (findIndex_lt _ _ _ hidx) hacc)
  simp only [accept, huser, hinv, hidx, hacc, hcount, if_true, Bool.false_eq_true, if_false]

/-- What decline answers and does when the first entry of the user is pending. -/
theorem decline_pending (connections : List Connection) (s : Store) (id : IdParam)
    (type : String)
    (invitationId : Nat) (user : User) (invitation : Invitation) (index : Nat)
    (huser : findOne (fun u => u._id == id.oid) s.users = some user)
    (hinv : findInvitation s type invitationId = some invitation)
    (hidx : findIndex (fun c => sameString c._id id) invitation.collaborators = some index)
    (hacc : acceptedAt invitation.collaborators index = false) :
    decline connections s id type invitationId =
      (⟨200, "Invitation declined"⟩,
        (setCollaborators s type invitationId (splice invitation.collaborators index)).1,
        notifyLoop connections (splice invitation.collaborators index)
          (user.name ++ " has declined the invitation to collaborate on " ++
            invitation.title)) := by
  have hcount := setCollaborators_count s type invitationId
    (splice invitation.collaborators index) invitation hinv
    (splice_ne _ _ (findIndex_lt _ _ _ hidx))
  simp only [decline, huser, hinv, hidx, hacc, hcount, if_true, Bool.false_eq_true, if_false]

/-! ## C3: accepting twice -/

/-- Accepting twice where the handler finds the entry of the user: when the first entry
whose identifier, as a string, equals the `id` of the request has accepted = false, the
first accept succeeds with 200, writes the list in which exactly that entry has become
(u, accepted = true), all other entries and the order unchanged, and a second accept on
the resulting state fails with 400 "User already accepted", sends nothing and leaves
the state unchanged. -/
theorem accept_twice (connections connections2 : List Connection) (s : Store) (id : IdParam)
    (type : String) (invitationId : Nat) (user : User) (invitation : Invitation) (index : Nat)
    (huser : findOne (fun u => u._id == id.oid) s.users = some user)
    (hinv : findInvitation s type invitationId = some invitation)
    (hidx : findIndex (fun c => sameString c._id id) invitation.collaborators = some index)
    (hacc : acceptedAt invitation.collaborators index = false) :
    invitation.collaborators[index]? = some ⟨id.oid, false⟩ ∧
    (accept connections s id type invitationId).1 = ⟨200, "Invitation accepted"⟩ ∧
    (accept connections s id type invitationId).2.1 =
      (setCollaborators s type invitationId
        (invitation.collaborators.set index ⟨id.oid, true⟩)).1 ∧
    findInvitation (accept connections s id type invitationId).2.1 type invitationId =
      some { title := invitation.title,
             collaborators := invitation.collaborators.set index ⟨id.oid, true⟩ } ∧
    accept connections2 (accept connections s id type invitationId).2.1 id type invitationId =
      (⟨400, "User already accepted"⟩, (accept connections s id type invitationId).2.1, []) := by
  have hfirst := accept_pending connections s id type invitationId user invitation index
    huser hinv hidx hacc
  have hset := setAccepted_eq_set id invitation.collaborators index hidx
  have hlt := findIndex_lt _ _ _ hidx
  have hinv' := findInvitation_setCollaborators s type invitationId
    (setAccepted invitation.collaborators index) invitation hinv
  have hentry : invitation.collaborators[index]? = some ⟨id.oid, false⟩ := by
    obtain ⟨c, hc, hq⟩ := findIndex_spec _ _ _ hidx
    simp only [acceptedAt, hc] at hacc
    have hid := (sameString_true _ _ hq).1
    rw [hc]
    cases c
    simp_all
  refine ⟨hentry, ?_, ?_, ?_, ?_⟩
  · rw [hfirst]
  · rw [hfirst, hset]
  · rw [hfirst]
    simpa only [hset] using hinv'
  · rw [hfirst]
    have huser' : findOne (fun u => u._id == id.oid)
        (setCollaborators s type invitationId
          (setAccepted invitation.collaborators index)).1.users = some user := by
      rw [setCollaborators_users]; exact huser
    simp only [accept, huser', hinv', findIndex_setAccepted, hidx,
      acceptedAt_setAccepted _ _ hlt, if_true]

/-- An instance of `accept_twice`: user 2, addressed by the canonical spelling of its
identifier, accepts the invitation to project 10 of `c3Store` twice. -/
theorem accept_twice_witness :
    (c3Store.projects.map Project.collaborators = [[⟨1, true⟩, ⟨2, false⟩]]) ∧
    (accept [] c3Store (.lower 2) "project" 10).1 = ⟨200, "Invitation accepted"⟩ ∧
    findInvitation (accept [] c3Store (.lower 2) "project" 10).2.1 "project" 10 =
      some { title := "t", collaborators := [⟨1, true⟩, ⟨2, true⟩] } ∧
    accept [] (accept [] c3Store (.lower 2) "project" 10).2.1 (.lower 2) "project" 10 =
      (⟨400, "User already accepted"⟩, (accept [] c3Store (.lower 2) "project" 10).2.1, []) :=
  have h := accept_twice [] [] c3Store (.lower 2) "project" 10 ⟨2, "bob"⟩
    { title := "t", collaborators := [⟨1, true⟩, ⟨2, false⟩] } 1 rfl rfl rfl rfl
  ⟨rfl, h.2.1, h.2.2.2.1, h.2.2.2.2⟩

/-- C3, the failing inputs. In `c3Store` user 2 exists and project 10 holds its entry
(2, accepted = false); the first accept of user 2, with the identifier spelled in
upper-case hexadecimal digits, answers 400 "User not invited" and writes nothing, where
the same request with the canonical spelling answers 200. And after user 1 created
project 10 with user 1 among the invited collaborators, the project holds the entries
(1, true) and (1, false), and the first accept of user 1 answers 400 "User already
accepted". -/
theorem accept_rejects_pending :
    (findOne (fun u => u._id == 2) c3Store.users = some ⟨2, "bob"⟩ ∧
      findInvitation c3Store "project" 10 =
        some { title := "t", collaborators := [⟨1, true⟩, ⟨2, false⟩] } ∧
      accept [] c3Store (.upper 2) "project" 10 = (⟨400, "User not invited"⟩, c3Store, []) ∧
      (accept [] c3Store (.lower 2) "project" 10).1 = ⟨200, "Invitation accepted"⟩) ∧
    (findOne (fun u => u._id == 1) c3Duplicate.users = some ⟨1, "ann"⟩ ∧
      findInvitation c3Duplicate "project" 10 =
        some { title := "t", collaborators := [⟨1, true⟩, ⟨1, false⟩] } ∧
      accept [] c3Duplicate (.lower 1) "project" 10 =
        (⟨400, "User already accepted"⟩, c3Duplicate, [])) := by
  decide

/-! ## C4: declining, then accepting -/

theorem findIndex_of_filter_singleton (q : Membership → Bool) (l : List Membership)
    (m : Membership) (h : l.filter q = [m]) :
    ∃ i, findIndex q l = some i ∧ l[i]? = some m ∧
      splice l i = l.filter (fun c => !q c) := by
  induction l with
  | nil => simp at h
  | cons x xs ih =>
    by_cases hq : q x = true
    · rw [List.filter_cons_of_pos hq] at h
      have hx : x = m := (List.cons.inj h).1
      have hnil : xs.filter q = [] := (List.cons.inj h).2
      refine ⟨0, by simp [findIndex, hq], by simp [hx], ?_⟩
      have hall : ∀ c ∈ xs, (!q c) = true := by
        intro c hc
        have := (List.filter_eq_nil_iff.mp hnil) c hc
        simpa using this
      simp only [splice]
      rw [List.filter_cons_of_neg (by simp [hq])]
      exact (List.filter_eq_self.mpr hall).symm
    · rw [List.filter_cons_of_neg hq] at h
      obtain ⟨i, hi, hget, hsplice⟩ := ih h
      refine ⟨i + 1, by simp [findIndex, hq, hi], by simpa using hget, ?_⟩
      simp only [splice, hsplice]
      rw [List.filter_cons_of_pos (by simpa using hq)]

/-- C4, amended: for an existing user u, addressed by the canonical spelling of its
identifier, and a project or task e in which u has exactly one entry, with
accepted = false, decline succeeds with 200 and writes the list without that entry
(the other entries and their order unchanged), and a following accept is rejected with
status 400 and the message "User not invited" (not with the not-found status 404),
sends nothing and leaves the state unchanged. -/
theorem decline_then_accept (connections connections2 : List Connection) (s : Store)
    (id : IdParam) (type : String) (invitationId : Nat) (user : User)
    (invitation : Invitation)
    (hcanonical : id.canonical = true)
    (huser : findOne (fun u => u._id == id.oid) s.users = some user)
    (hinv : findInvitation s type invitationId = some invitation)
    (honly : invitation.collaborators.filter (fun c => c._id == id.oid) =
      [⟨id.oid, false⟩]) :
    (decline connections s id type invitationId).1 = ⟨200, "Invitation declined"⟩ ∧
    findInvitation (decline connections s id type invitationId).2.1 type invitationId =
      some { title := invitation.title,
             collaborators :=
               invitation.collaborators.filter (fun c => !(c._id == id.oid)) } ∧
    accept connections2 (decline connections s id type invitationId).2.1 id type invitationId =
      (⟨400, "User not invited"⟩, (decline connections s id type invitationId).2.1, []) := by
  have hsame := sameString_canonical id hcanonical
  rw [← hsame] at honly
  obtain ⟨index, hidx, hget, hsplice⟩ :=
    findIndex_of_filter_singleton (fun c => sameString c._id id) invitation.collaborators _
      honly
  have hsplice' : splice invitation.collaborators index =
      invitation.collaborators.filter (fun c => !(c._id == id.oid)) := by
    rw [hsplice]
    exact congrArg (fun q : Membership → Bool => invitation.collaborators.filter
      (fun c => !q c)) hsame
  have hacc : acceptedAt invitation.collaborators index = false := by
    simp [acceptedAt, hget]
  have hfirst := decline_pending connections s id type invitationId user invitation index
    huser hinv hidx hacc
  have hinv' := findInvitation_setCollaborators s type invitationId
    (splice invitation.collaborators index) invitation hinv
  have hnone : findIndex (fun c => sameString c._id id)
      (splice invitation.collaborators index) = none := by
    rw [findIndex_none, hsplice]
    intro c hc
    have := (List.mem_filter.mp hc).2
    simpa using this
  refine ⟨?_, ?_, ?_⟩
  · rw [hfirst]
  · rw [hfirst, hinv', hsplice']
  · rw [hfirst]
    have huser' : findOne (fun u => u._id == id.oid)
        (setCollaborators s type invitationId
          (splice invitation.collaborators index)).1.users = some user := by
      rw [setCollaborators_users]; exact huser
    simp only [accept, huser', hinv', hnone]

/-- C4, witness: user 1 declines the invitation to task 20 of `c3Store`, then tries to
accept it. -/
theorem decline_then_accept_witness :
    (decline [] c3Store (.lower 1) "task" 20).1 = ⟨200, "Invitation declined"⟩ ∧
    findInvitation (decline [] c3Store (.lower 1) "task" 20).2.1 "task" 20 =
      some { title := "k", collaborators := [⟨2, true⟩] } ∧
    accept [] (decline [] c3Store (.lower 1) "task" 20).2.1 (.lower 1) "task" 20 =
      (⟨400, "User not invited"⟩, (decline [] c3Store (.lower 1) "task" 20).2.1, []) :=
  decline_then_accept [] [] c3Store (.lower 1) "task" 20 ⟨1, "ann"⟩
    { title := "k", collaborators := [⟨2, true⟩, ⟨1, false⟩] } rfl rfl rfl rfl

/-- C4, counterexample: in `c3Store` user 2 has a pending invitation to project 10;
decline succeeds and the following accept answers 400 "User not invited", whose status
is not 404. When project 11 was created with user 2 invited twice, the accept that
follows the decline succeeds with 200. And with the identifier of user 2 spelled in
upper-case hexadecimal digits, decline itself answers 400 "User not invited". -/
theorem decline_then_accept_counterexample :
    ((decline [] c3Store (.lower 2) "project" 10).1 = ⟨200, "Invitation declined"⟩ ∧
      (accept [] (decline [] c3Store (.lower 2) "project" 10).2.1 (.lower 2) "project" 10).1 =
        ⟨400, "User not invited"⟩ ∧
      (accept [] (decline [] c3Store (.lower 2) "project" 10).2.1
        (.lower 2) "project" 10).1.status ≠ 404) ∧
    (findInvitation c4Duplicate "project" 11 =
        some { title := "t", collaborators := [⟨1, true⟩, ⟨2, false⟩, ⟨2, false⟩] } ∧
      (decline [] c4Duplicate (.lower 2) "project" 11).1 = ⟨200, "Invitation declined"⟩ ∧
      (accept [] (decline [] c4Duplicate (.lower 2) "project" 11).2.1
        (.lower 2) "project" 11).1 = ⟨200, "Invitation accepted"⟩) ∧
    decline [] c3Store (.upper 2) "project" 10 = (⟨400, "User not invited"⟩, c3Store, []) := by
  decide

/-! ## C5: inviting the same user twice -/

theorem any_eq_false_iff_findIndex (q : Membership → Bool) (l : List Membership) :
    l.any q = false ↔ findIndex q l = none := by
  rw [findIndex_none]
  simp [List.any_eq_false]

/-- The conditions under which addCollaborator succeeds, read off its success. -/
theorem addCollaborator_success (s : Store) (id : Nat) (collaboratorId : IdParam)
    (h : (addCollaborator s id collaboratorId).1 = ⟨200, "Collaborator added successfully"⟩) :
    ∃ project user, findOne (fun p => p._id == id) s.projects = some project ∧
      project.completed = false ∧
      project.collaborators.any (fun c => sameString c._id collaboratorId) = false ∧
      findOne (fun u => u._id == collaboratorId.oid) s.users = some user := by
  unfold addCollaborator at h
  split at h
  · simp at h
  · rename_i project hproject
    split at h
    · simp at h
    · rename_i hcompleted
      split at h
      · simp at h
      · rename_i hany
        split at h
        · simp at h
        · rename_i user huser
          exact ⟨project, user, hproject, by simpa using hcompleted,
            Bool.eq_false_iff.mpr hany, huser⟩

/-- What addCollaborator answers and does on an open project in which the string of
the request finds no entry. -/
theorem addCollaborator_new (s : Store) (id : Nat) (collaboratorId : IdParam)
    (project : Project)
    (user : User) (hproject : findOne (fun p => p._id == id) s.projects = some project)
    (hcompleted : project.completed = false)
    (hany : project.collaborators.any (fun c => sameString c._id collaboratorId) = false)
    (huser : findOne (fun u => u._id == collaboratorId.oid) s.users = some user) :
    addCollaborator s id collaboratorId =
      (⟨200, "Collaborator added successfully"⟩,
        { s with projects := (updateOne (fun p => p._id == id)
            (fun p => { p with collaborators :=
              p.collaborators ++ [{ _id := collaboratorId.oid, accepted := false }] })
            s.projects).1 }) := by
  have hcount := updateOne_count (fun p => p._id == id)
    (fun p : Project => { p with collaborators :=
      p.collaborators ++ [{ _id := collaboratorId.oid, accepted := false }] })
    s.projects project hproject
  rw [if_neg] at hcount
  · simp only [addCollaborator, hproject, hcompleted, hany, huser, hcount]
    simp
  · intro heq
    have := congrArg (fun p => p.collaborators.length) heq
    simp at this

/-- What addCollaborator answers on an open project in which the string of the request
finds an entry. -/
theorem addCollaborator_present (s : Store) (id : Nat) (collaboratorId : IdParam)
    (project : Project)
    (hproject : findOne (fun p => p._id == id) s.projects = some project)
    (hcompleted : project.completed = false)
    (hany : project.collaborators.any (fun c => sameString c._id collaboratorId) = true) :
    addCollaborator s id collaboratorId = (⟨400, "Collaborator already added"⟩, s) := by
  simp only [addCollaborator, hproject, hcompleted, hany, if_true, Bool.false_eq_true, if_false]

/-- On an open project in which the first entry that the string of the request finds
is pending, addCollaborator is rejected, before and after the user accepts. -/
theorem addCollaborator_invited (connections : List Connection) (s : Store)
    (id : Nat) (collaboratorId : IdParam) (project : Project) (user : User) (index : Nat)
    (hproject : findOne (fun p => p._id == id) s.projects = some project)
    (hcompleted : project.completed = false)
    (huser : findOne (fun u => u._id == collaboratorId.oid) s.users = some user)
    (hidx : findIndex (fun c => sameString c._id collaboratorId) project.collaborators =
      some index)
    (hacc : acceptedAt project.collaborators index = false) :
    addCollaborator s id collaboratorId = (⟨400, "Collaborator already added"⟩, s) ∧
    (accept connections s collaboratorId "project" id).1 = ⟨200, "Invitation accepted"⟩ ∧
    addCollaborator (accept connections s collaboratorId "project" id).2.1 id collaboratorId =
      (⟨400, "Collaborator already added"⟩,
        (accept connections s collaboratorId "project" id).2.1) := by
  have hq : (project._id == id) = true :=
    findOne_sat (fun p : Project => p._id == id) _ _ hproject
  have hinv : findInvitation s "project" id =
      some { title := project.title, collaborators := project.collaborators } := by
    simp [findInvitation, hproject]
  have haccept := accept_pending connections s collaboratorId "project" id user _ _
    huser hinv hidx hacc
  have hany : ∀ l : List Membership, ∀ i,
      findIndex (fun c => sameString c._id collaboratorId) l = some i →
        l.any (fun c => sameString c._id collaboratorId) = true := by
    intro l i hi
    by_contra hfalse
    have hnone := (any_eq_false_iff_findIndex
      (fun c => sameString c._id collaboratorId) l).mp (Bool.eq_false_iff.mpr hfalse)
    rw [hi] at hnone
    cases hnone
  refine ⟨?_, ?_, ?_⟩
  · exact addCollaborator_present s id collaboratorId project hproject hcompleted
      (hany _ _ hidx)
  · rw [haccept]
  · rw [haccept]
    have hfound2 := findOne_updateOne (fun p => p._id == id)
      (fun p : Project => { p with collaborators :=
        (setAccepted project.collaborators index) })
      s.projects project hproject hq
    refine addCollaborator_present _ id collaboratorId
      { project with collaborators := (setAccepted project.collaborators index) } ?_
      hcompleted ?_
    · simpa [setCollaborators] using hfound2
    · exact hany _ index (by rw [findIndex_setAccepted]; exact hidx)

/-- Inviting twice with the canonical spelling of the identifier: if
addCollaborator(p, u) succeeds, then p existed, was not completed, and the stored
project is p with (u, accepted = false) appended; a second addCollaborator(p, u) on the
resulting state answers 400 "Collaborator already added" and leaves the store
unchanged; and when u accepts in between (which succeeds), the second
addCollaborator(p, u) answers the same and leaves the store unchanged as well. -/
theorem add_collaborator_twice (connections : List Connection) (s : Store)
    (id : Nat) (collaboratorId : IdParam) (hcanonical : collaboratorId.canonical = true)
    (h : (addCollaborator s id collaboratorId).1 = ⟨200, "Collaborator added successfully"⟩) :
    (∃ project, findOne (fun p => p._id == id) s.projects = some project ∧
      project.completed = false ∧
      findOne (fun p => p._id == id) (addCollaborator s id collaboratorId).2.projects =
        some { project with collaborators :=
          project.collaborators ++ [{ _id := collaboratorId.oid, accepted := false }] }) ∧
    addCollaborator (addCollaborator s id collaboratorId).2 id collaboratorId =
      (⟨400, "Collaborator already added"⟩, (addCollaborator s id collaboratorId).2) ∧
    (accept connections (addCollaborator s id collaboratorId).2 collaboratorId "project" id).1 =
      ⟨200, "Invitation accepted"⟩ ∧
    addCollaborator
        (accept connections (addCollaborator s id collaboratorId).2
          collaboratorId "project" id).2.1 id collaboratorId =
      (⟨400, "Collaborator already added"⟩,
        (accept connections (addCollaborator s id collaboratorId).2
          collaboratorId "project" id).2.1) := by
  obtain ⟨project, user, hproject, hcompleted, hany, huser⟩ :=
    addCollaborator_success s id collaboratorId h
  have hfirst := addCollaborator_new s id collaboratorId project user hproject hcompleted
    hany huser
  have hq : (project._id == id) = true :=
    findOne_sat (fun p : Project => p._id == id) _ _ hproject
  have hfound := findOne_updateOne (fun p => p._id == id)
    (fun p : Project => { p with collaborators :=
      p.collaborators ++ [{ _id := collaboratorId.oid, accepted := false }] })
    s.projects project hproject hq
  have hself : sameString collaboratorId.oid collaboratorId = true := by
    simp [sameString, hcanonical]
  have hidx : ∀ l : List Membership,
      findIndex (fun c => sameString c._id collaboratorId) l = none →
      findIndex (fun c => sameString c._id collaboratorId)
        (l ++ [{ _id := collaboratorId.oid, accepted := false }]) = some l.length := by
    intro l
    induction l with
    | nil => intro _; simp [findIndex, hself]
    | cons c cs ih =>
      intro hnone
      unfold findIndex at hnone
      by_cases hc : sameString c._id collaboratorId = true
      · rw [if_pos hc] at hnone; cases hnone
      · rw [if_neg hc] at hnone
        simp only [Option.map_eq_none'] at hnone
        rw [List.cons_append, findIndex, if_neg hc, ih hnone]
        rfl
  rw [hfirst]
  exact ⟨⟨project, hproject, hcompleted, hfound⟩,
    addCollaborator_invited connections _ id collaboratorId
      { project with collaborators :=
        project.collaborators ++ [{ _id := collaboratorId.oid, accepted := false }] }
      user project.collaborators.length hfound hcompleted huser
      (hidx _ ((any_eq_false_iff_findIndex _ _).mp hany)) (by simp [acceptedAt])⟩

/-- An instance of `add_collaborator_twice`: user 2 is invited to project 10 of
`c5Store` with the canonical spelling, then invited again, with and without an accept
in between. -/
theorem add_collaborator_twice_witness :
    (addCollaborator c5Store 10 (.lower 2)).1 = ⟨200, "Collaborator added successfully"⟩ ∧
    addCollaborator (addCollaborator c5Store 10 (.lower 2)).2 10 (.lower 2) =
      (⟨400, "Collaborator already added"⟩, (addCollaborator c5Store 10 (.lower 2)).2) ∧
    (accept [] (addCollaborator c5Store 10 (.lower 2)).2 (.lower 2) "project" 10).1 =
      ⟨200, "Invitation accepted"⟩ ∧
    addCollaborator
        (accept [] (addCollaborator c5Store 10 (.lower 2)).2 (.lower 2) "project" 10).2.1
        10 (.lower 2) =
      (⟨400, "Collaborator already added"⟩,
        (accept [] (addCollaborator c5Store 10 (.lower 2)).2 (.lower 2) "project" 10).2.1) :=
  ⟨by decide, (add_collaborator_twice [] c5Store 10 (.lower 2) rfl (by decide)).2⟩

/-- C5, the failing input: in `c5Store` project 10 is open and user 2 exists;
addCollaborator(10, 2) with the identifier of user 2 spelled in upper-case hexadecimal
digits succeeds with 200 and appends (2, accepted = false), and the same request again
succeeds with 200 again and appends a second entry (2, accepted = false), where the
claim has it rejected with "Collaborator already added". -/
theorem addCollaborator_pushes_twice :
    (addCollaborator c5Store 10 (.upper 2)).1 = ⟨200, "Collaborator added successfully"⟩ ∧
    findInvitation (addCollaborator c5Store 10 (.upper 2)).2 "project" 10 =
      some { title := "t", collaborators := [⟨1, true⟩, ⟨2, false⟩] } ∧
    (addCollaborator (addCollaborator c5Store 10 (.upper 2)).2 10 (.upper 2)).1 =
      ⟨200, "Collaborator added successfully"⟩ ∧
    findInvitation (addCollaborator (addCollaborator c5Store 10 (.upper 2)).2 10 (.upper 2)).2
        "project" 10 =
      some { title := "t", collaborators := [⟨1, true⟩, ⟨2, false⟩, ⟨2, false⟩] } := by
  decide

/-! ## C6: the date nesting guard -/

theorem jsGt_at (d : Int) (x : JsDate) :
    jsGt (JsDate.valid d).getTime x.getTime = true ↔ ∃ ts, x = .valid ts ∧ ts < d := by
  cases x with
  | invalid => simp [jsGt, JsDate.getTime]
  | valid ts => simp [jsGt, JsDate.getTime]

theorem jsLt_at (d : Int) (x : JsDate) :
    jsLt (JsDate.valid d).getTime x.getTime = true ↔ ∃ te, x = .valid te ∧ d < te := by
  cases x with
  | invalid => simp [jsLt, JsDate.getTime]
  | valid te => simp [jsLt, JsDate.getTime]

theorem dateLoop_none (type : String) (d : Int) (tasks : List Task)
    (h : dateLoop type (.valid d) tasks = none) :
    ∀ task ∈ tasks, ¬((type = "start" ∧ ∃ ts, task.dates.start = .valid ts ∧ ts < d) ∨
      (type = "end" ∧ ∃ te, task.dates.end_ = .valid te ∧ d < te)) := by
  induction tasks with
  | nil => intro task htask; simp at htask
  | cons t ts ih =>
    unfold dateLoop at h
    split at h
    · cases h
    · rename_i hstart
      split at h
      · cases h
      · rename_i hend
        intro task htask
        rcases List.mem_cons.mp htask with rfl | htask
        · rw [jsGt_at] at hstart
          rw [jsLt_at] at hend
          rintro (hc | hc)
          · exact hstart hc
          · exact hend hc
        · exact ih h task htask

theorem dateLoop_some (type : String) (d : Int) (tasks : List Task) (r : Response)
    (h : dateLoop type (.valid d) tasks = some r) :
    isDateConflict r = true ∧
      ∃ task ∈ tasks, (type = "start" ∧ ∃ ts, task.dates.start = .valid ts ∧ ts < d) ∨
        (type = "end" ∧ ∃ te, task.dates.end_ = .valid te ∧ d < te) := by
  induction tasks with
  | nil => simp [dateLoop] at h
  | cons t ts ih =>
    unfold dateLoop at h
    split at h
    · rename_i hstart
      rw [jsGt_at] at hstart
      cases h
      exact ⟨by decide, t, List.mem_cons_self _ _, Or.inl hstart⟩
    · split at h
      · rename_i hend
        rw [jsLt_at] at hend
        cases h
        exact ⟨by decide, t, List.mem_cons_self _ _, Or.inr hend⟩
      · obtain ⟨hr, task, htask, hc⟩ := ih h
        exact ⟨hr, task, List.mem_cons_of_mem _ htask, hc⟩

/-- C6: on an existing, not completed project, with a valid date d and a kind among
start and end, setDate answers with a date conflict exactly when some task under the
project violates nesting (start: d is strictly after the task's start; end: d is
strictly before the task's end); on a conflict the store is unchanged, and without a
conflict the stored project is the old one with dates.kind set to d, the other date
fields and all other fields unchanged. -/
theorem setDate_nesting (s : Store) (id : Nat) (type : String) (d : Int) (project : Project)
    (hfound : findOne (fun p => p._id == id) s.projects = some project)
    (hcompleted : project.completed = false)
    (htype : type = "start" ∨ type = "end") :
    (isDateConflict (setDate s id type (some (.valid d))).1 = true ↔
      NestingConflict s id type d) ∧
    (NestingConflict s id type d → (setDate s id type (some (.valid d))).2 = s) ∧
    (¬NestingConflict s id type d →
      findOne (fun p => p._id == id) (setDate s id type (some (.valid d))).2.projects =
        some { project with dates :=
          if type = "start" then { project.dates with start := .valid d }
          else { project.dates with end_ := .valid d } }) := by
  have hkind : ¬(type ≠ "start" ∧ type ≠ "end") := by tauto
  have hq : (project._id == id) = true :=
    findOne_sat (fun p : Project => p._id == id) _ _ hfound
  cases hloop : dateLoop type (.valid d) (find (fun t => t.projectId == id) s.tasks) with
  | some r =>
    obtain ⟨hr, task, htask, hc⟩ := dateLoop_some _ _ _ _ hloop
    have hconflict : NestingConflict s id type d := by
      simp only [find, List.mem_filter, beq_iff_eq] at htask
      exact ⟨task, htask.1, htask.2, hc⟩
    have heq : setDate s id type (some (.valid d)) = (r, s) := by
      simp only [setDate, hfound, hcompleted, hkind, hloop, if_false, Bool.false_eq_true]
    rw [heq]
    exact ⟨⟨fun _ => hconflict, fun _ => hr⟩, fun _ => rfl, fun h => absurd hconflict h⟩
  | none =>
    have hnone := dateLoop_none _ _ _ hloop
    have hconflict : ¬NestingConflict s id type d := by
      rintro ⟨task, htask, hid, hc⟩
      exact hnone task (by simp [find, htask, hid]) hc
    have hupd := findOne_updateOne (fun p => p._id == id) (setDateField type (.valid d))
      s.projects project hfound (by unfold setDateField; split <;> exact hq)
    have hfield : setDateField type (.valid d) project =
        { project with dates :=
          if type = "start" then { project.dates with start := .valid d }
          else { project.dates with end_ := .valid d } } := by
      unfold setDateField
      split <;> rfl
    rw [hfield] at hupd
    have heq : (setDate s id type (some (.valid d))).2.projects =
        (updateOne (fun p => p._id == id) (setDateField type (.valid d)) s.projects).1 ∧
        isDateConflict (setDate s id type (some (.valid d))).1 = false := by
      simp only [setDate, hfound, hcompleted, hkind, hloop, if_false, Bool.false_eq_true]
      split <;> exact ⟨rfl, rfl⟩
    refine ⟨⟨fun h => ?_, fun h => absurd h hconflict⟩, fun h => absurd h hconflict, fun _ => ?_⟩
    · rw [heq.2] at h; cases h
    · rw [heq.1]; exact hupd

/-- C6, witness: moving the start of project 10 of `c3Store` to 5, after the start of
its task 20. -/
theorem setDate_nesting_witness :
    (isDateConflict (setDate c3Store 10 "start" (some (.valid 5))).1 = true ↔
      NestingConflict c3Store 10 "start" 5) ∧
    (NestingConflict c3Store 10 "start" 5 →
      (setDate c3Store 10 "start" (some (.valid 5))).2 = c3Store) ∧
    (¬NestingConflict c3Store 10 "start" 5 →
      findOne (fun p => p._id == 10) (setDate c3Store 10 "start" (some (.valid 5))).2.projects =
        some { _id := 10, title := "t", description := "d",
               dates := { start := .valid 5, end_ := .valid 9, create := .valid 0 },
               label := "l", creatorId := 1,
               collaborators := [⟨1, true⟩, ⟨2, false⟩], completed := false }) :=
  setDate_nesting c3Store 10 "start" 5 _ rfl rfl (Or.inl rfl)

/-! ## C7: the audience of the notifications -/

/-- The success of accept, read back: the user exists and its first entry was pending. -/
theorem accept_success (connections : List Connection) (s : Store) (id : IdParam)
    (type : String) (invitationId : Nat)
    (h : (accept connections s id type invitationId).1 = ⟨200, "Invitation accepted"⟩) :
    ∃ user invitation index, findOne (fun u => u._id == id.oid) s.users = some user ∧
      findInvitation s type invitationId = some invitation ∧
      findIndex (fun c => sameString c._id id) invitation.collaborators = some index ∧
      acceptedAt invitation.collaborators index = false := by
  unfold accept at h
  split at h
  · simp at h
  · rename_i user huser
    split at h
    · simp at h
    · rename_i invitation hinv
      split at h
      · simp at h
      · rename_i index hidx
        split at h
        · simp at h
        · rename_i hacc
          exact ⟨user, invitation, index, huser, hinv, hidx, by simpa using hacc⟩

/-- The success of decline, read back: the user exists and its first entry was pending. -/
theorem decline_success (connections : List Connection) (s : Store) (id : IdParam)
    (type : String) (invitationId : Nat)
    (h : (decline connections s id type invitationId).1 = ⟨200, "Invitation declined"⟩) :
    ∃ user invitation index, findOne (fun u => u._id == id.oid) s.users = some user ∧
      findInvitation s type invitationId = some invitation ∧
      findIndex (fun c => sameString c._id id) invitation.collaborators = some index ∧
      acceptedAt invitation.collaborators index = false := by
  unfold decline at h
  split at h
  · simp at h
  · rename_i user huser
    split at h
    · simp at h
    · rename_i invitation hinv
      split at h
      · simp at h
      · rename_i index hidx
        split at h
        · simp at h
        · rename_i hacc
          exact ⟨user, invitation, index, huser, hinv, hidx, by simpa using hacc⟩

theorem notifyLoop_eq (connections : List Connection) (collaborators : List Membership)
    (message : String) :
    notifyLoop connections collaborators message =
      (audience connections collaborators).flatMap (pushTo message) := by
  induction connections with
  | nil => rfl
  | cons c cs ih =>
    unfold notifyLoop audience at ih ⊢
    by_cases hc : collaborators.any
        (fun m => m._id == c.authentication._id && m.accepted) = true
    · simp only [List.flatMap_cons, List.filter_cons, hc, if_true, ih]
      rfl
    · simp only [List.flatMap_cons, List.filter_cons, hc, if_false, ih]
      rfl

/-- C7, amended: after a successful accept or decline by actor a on entity e, the
connections that are sent messages are exactly the live connections whose user id has
a membership with accepted = true on e as stored after the update, in the order of the
registry, and each of them is sent UPDATE_DATA and then the NOTIFICATION naming the
actor and the title; the loop excludes neither the actor (who is an accepted member
after an accept) nor the service-client connections. -/
theorem fanout_audience (connections : List Connection) (s : Store) (id : IdParam)
    (type : String) (invitationId : Nat) :
    ((accept connections s id type invitationId).1 = ⟨200, "Invitation accepted"⟩ →
      ∃ user invitation,
        findOne (fun u => u._id == id.oid) s.users = some user ∧
        findInvitation (accept connections s id type invitationId).2.1 type invitationId =
          some invitation ∧
        (accept connections s id type invitationId).2.2 =
          (audience connections invitation.collaborators).flatMap
            (pushTo (user.name ++ " has accepted the invitation to collaborate on " ++
              invitation.title))) ∧
    ((decline connections s id type invitationId).1 = ⟨200, "Invitation declined"⟩ →
      ∃ user invitation,
        findOne (fun u => u._id == id.oid) s.users = some user ∧
        findInvitation (decline connections s id type invitationId).2.1 type invitationId =
          some invitation ∧
        (decline connections s id type invitationId).2.2 =
          (audience connections invitation.collaborators).flatMap
            (pushTo (user.name ++ " has declined the invitation to collaborate on " ++
              invitation.title))) := by
  constructor
  · intro h
    obtain ⟨user, invitation, index, huser, hinv, hidx, hacc⟩ :=
      accept_success connections s id type invitationId h
    have hrun := accept_pending connections s id type invitationId user invitation index
      huser hinv hidx hacc
    have hpost := findInvitation_setCollaborators s type invitationId
      (setAccepted invitation.collaborators index) invitation hinv
    refine ⟨user, ⟨invitation.title, setAccepted invitation.collaborators index⟩, huser, ?_, ?_⟩
    · rw [hrun]; exact hpost
    · rw [hrun]; exact notifyLoop_eq _ _ _
  · intro h
    obtain ⟨user, invitation, index, huser, hinv, hidx, hacc⟩ :=
      decline_success connections s id type invitationId h
    have hrun := decline_pending connections s id type invitationId user invitation index
      huser hinv hidx hacc
    have hpost := findInvitation_setCollaborators s type invitationId
      (splice invitation.collaborators index) invitation hinv
    refine ⟨user, ⟨invitation.title, splice invitation.collaborators index⟩, huser, ?_, ?_⟩
    · rw [hrun]; exact hpost
    · rw [hrun]; exact notifyLoop_eq _ _ _

/-- C7, witness: user 2 accepts the invitation to project 10 of `c3Store`, and user 1
declines the invitation to task 20, with the four connections live. -/
theorem fanout_audience_witness :
    (∃ user invitation,
        findOne (fun u => u._id == 2) c3Store.users = some user ∧
        findInvitation (accept c7Connections c3Store (.lower 2) "project" 10).2.1 "project" 10 =
          some invitation ∧
        (accept c7Connections c3Store (.lower 2) "project" 10).2.2 =
          (audience c7Connections invitation.collaborators).flatMap
            (pushTo (user.name ++ " has accepted the invitation to collaborate on " ++
              invitation.title))) ∧
    (∃ user invitation,
        findOne (fun u => u._id == 1) c3Store.users = some user ∧
        findInvitation (decline c7Connections c3Store (.lower 1) "task" 20).2.1 "task" 20 =
          some invitation ∧
        (decline c7Connections c3Store (.lower 1) "task" 20).2.2 =
          (audience c7Connections invitation.collaborators).flatMap
            (pushTo (user.name ++ " has declined the invitation to collaborate on " ++
              invitation.title))) :=
  ⟨(fanout_audience c7Connections c3Store (.lower 2) "project" 10).1 (by decide),
    (fanout_audience c7Connections c3Store (.lower 1) "task" 20).2 (by decide)⟩

/-- C7, counterexample: user 2 accepts the invitation to project 10 of `c3Store`. The
claimed audience is the connection 100 alone (user 1, not a service client); the
handler also sends both messages to connection 101, which is the actor's, and to
connection 102, which is a service client. When user 1 declines the invitation to
task 20, the service client 104 of the accepted collaborator 2 is sent both messages. -/
theorem fanout_audience_counterexample :
    (accept c7Connections c3Store (.lower 2) "project" 10).1 = ⟨200, "Invitation accepted"⟩ ∧
    (accept c7Connections c3Store (.lower 2) "project" 10).2.2 =
      [⟨100, .updateData⟩,
       ⟨100, .notification "bob has accepted the invitation to collaborate on t"⟩,
       ⟨101, .updateData⟩,
       ⟨101, .notification "bob has accepted the invitation to collaborate on t"⟩,
       ⟨102, .updateData⟩,
       ⟨102, .notification "bob has accepted the invitation to collaborate on t"⟩] ∧
    (c7Connections.filter (fun c => c.authentication._id == 2 || c.authentication.serviceWorker)
      ).map Connection.ws = [101, 102] ∧
    (decline [⟨⟨2, true⟩, 104⟩] c3Store (.lower 1) "task" 20).1 = ⟨200, "Invitation declined"⟩ ∧
    (decline [⟨⟨2, true⟩, 104⟩] c3Store (.lower 1) "task" 20).2.2 =
      [⟨104, .updateData⟩,
       ⟨104, .notification "ann has declined the invitation to collaborate on k"⟩] := by
  decide

/-! ## C8: the progress of a project without tasks -/

/-- C8, amended: for every project id with zero tasks in the store, projectProgress
answers 200 with the numeric value NaN, the result of (0 / 0) * 100, as progress; it
has no explicit Undefined result. -/
theorem progress_without_tasks (s : Store) (id : Nat)
    (h : ∀ task ∈ s.tasks, task.projectId ≠ id) :
    projectProgress s id = (200, JsNumber.nan) := by
  have hnil : find (fun t => t.projectId == id) s.tasks = [] := by
    simp only [find, List.filter_eq_nil_iff, beq_iff_eq]
    exact h
  simp [projectProgress, hnil, jsDiv, jsTimes100]

/-- C8, witness: project 10 of `c5Store`, a store without tasks. -/
theorem progress_without_tasks_witness : projectProgress c5Store 10 = (200, JsNumber.nan) :=
  progress_without_tasks c5Store 10 (by decide)

/-- C8, counterexample: project 10 of `c5Store` exists and has no task, and the
progress computed for it is the number NaN, the quotient of 0 by 0 times 100. -/
theorem progress_without_tasks_counterexample :
    (findOne (fun p => p._id == 10) c5Store.projects).isSome = true ∧
    find (fun t => t.projectId == 10) c5Store.tasks = [] ∧
    (projectProgress c5Store 10).2 = jsTimes100 (jsDiv 0 0) ∧
    (projectProgress c5Store 10).2 = JsNumber.nan := by
  decide

/-- The scenario of the specification: of the two tasks of project 10 of `c9Store` one
has the status completed, and the progress is 50. -/
theorem progress_half : projectProgress c9Store 10 = (200, JsNumber.finite 50) := by
  have htotal : (find (fun t => t.projectId == 10) c9Store.tasks).length = 2 := by decide
  have hdone : ((find (fun t => t.projectId == 10) c9Store.tasks).filter
      (fun task => task.status == "completed")).length = 1 := by decide
  simp only [projectProgress, htotal, hdone, jsDiv, jsTimes100]
  norm_num

/-! ## C9: the cascade of a removal -/

theorem removeCollaborator_tasks (s : Store) (id collaboratorId : Nat) (project : Project)
    (hfound : findOne (fun p => p._id == id) s.projects = some project)
    (hcompleted : project.completed = false) :
    (removeCollaborator s id collaboratorId).2.tasks =
      updateMany (fun t => t.projectId == id)
        (fun t => { t with collaborators := pull collaboratorId t.collaborators })
        (deleteMany (fun t => t.projectId == id && t.creatorId == collaboratorId) s.tasks) := by
  simp only [removeCollaborator, hfound, hcompleted, Bool.false_eq_true, if_false]
  split <;> rfl

/-- C9: after removeCollaborator(p, u) on an existing, not completed project p, no
task of the store has projectId = p and creatorId = u; no task under p has an entry of
u; every task under p that u did not create is still there with its entries of other
users, in their order; the tasks of other projects are the same as before; and no
task was added. -/
theorem removal_cascade (s : Store) (id collaboratorId : Nat) (project : Project)
    (hfound : findOne (fun p => p._id == id) s.projects = some project)
    (hcompleted : project.completed = false) :
    (∀ t ∈ (removeCollaborator s id collaboratorId).2.tasks,
      ¬(t.projectId = id ∧ t.creatorId = collaboratorId)) ∧
    (∀ t ∈ (removeCollaborator s id collaboratorId).2.tasks,
      t.projectId = id → ∀ c ∈ t.collaborators, c._id ≠ collaboratorId) ∧
    (∀ t ∈ s.tasks, t.projectId = id → t.creatorId ≠ collaboratorId →
      { t with collaborators := t.collaborators.filter (fun c => c._id != collaboratorId) } ∈
        (removeCollaborator s id collaboratorId).2.tasks) ∧
    ((removeCollaborator s id collaboratorId).2.tasks.filter (fun t => t.projectId != id) =
      s.tasks.filter (fun t => t.projectId != id)) ∧
    ((removeCollaborator s id collaboratorId).2.tasks.map Task._id =
      (s.tasks.filter
        (fun t => !(t.projectId == id && t.creatorId == collaboratorId))).map Task._id) := by
  rw [removeCollaborator_tasks s id collaboratorId project hfound hcompleted]
  refine ⟨?_, ?_, ?_, ?_, ?_⟩
  · intro t ht
    simp only [updateMany, deleteMany, List.mem_map, List.mem_filter] at ht
    obtain ⟨t0, ⟨_, hkeep⟩, rfl⟩ := ht
    simp only [Bool.not_eq_true', Bool.and_eq_false_iff, beq_eq_false_iff_ne] at hkeep
    split <;> simp_all
  · intro t ht hid c hc
    simp only [updateMany, deleteMany, List.mem_map, List.mem_filter] at ht
    obtain ⟨t0, ⟨_, _⟩, rfl⟩ := ht
    by_cases h0 : (t0.projectId == id) = true
    · simp only [h0, if_true, pull, List.mem_filter] at hc
      simpa using hc.2
    · simp only [h0] at hid
      simp only [beq_iff_eq] at h0
      exact absurd hid h0
  · intro t ht hid hcreator
    simp only [updateMany, deleteMany, List.mem_map, List.mem_filter]
    refine ⟨t, ⟨ht, by simp [hcreator]⟩, ?_⟩
    simp only [hid, beq_self_eq_true, if_true, pull]
    congr 1
  · simp only [updateMany, deleteMany]
    induction s.tasks with
    | nil => rfl
    | cons t ts ih =>
      by_cases hid : t.projectId = id
      · by_cases hcr : t.creatorId = collaboratorId
        · simp_all
        · simp_all
      · simp_all
  · simp only [updateMany, deleteMany, List.map_map]
    apply List.map_congr_left
    intro t _
    simp only [Function.comp]
    split <;> rfl

/-- C9, witness: user 2 is removed from project 10 of `c9Store`; task 20 is deleted,
task 21 loses the entry of user 2 and task 22, of project 11, stays. -/
theorem removal_cascade_witness :
    (∀ t ∈ (removeCollaborator c9Store 10 2).2.tasks, ¬(t.projectId = 10 ∧ t.creatorId = 2)) ∧
    (∀ t ∈ (removeCollaborator c9Store 10 2).2.tasks,
      t.projectId = 10 → ∀ c ∈ t.collaborators, c._id ≠ 2) ∧
    ((removeCollaborator c9Store 10 2).2.tasks.filter (fun t => t.projectId != 10) =
      c9Store.tasks.filter (fun t => t.projectId != 10)) ∧
    (removeCollaborator c9Store 10 2).2.tasks.map Task.collaborators =
      [[⟨1, true⟩, ⟨3, false⟩], [⟨2, true⟩]] :=
  have h := removal_cascade c9Store 10 2 _ rfl rfl
  ⟨h.1, h.2.1, h.2.2.2.1, by decide⟩

/-! ## C10: the views of a user -/

/-- C10, the failing input: in `c3Store` user 1 did not create task 20 of project 10
and has only a pending entry on it, yet tasksForUser(10, 1) returns the task; the
project view of user 2, who has only a pending entry on project 10, is empty. Both
requests carry the canonical spelling of the identifier. -/
theorem tasksForUser_shows_pending :
    c3Store.tasks.map (fun t => (t._id, t.projectId, t.creatorId, t.collaborators)) =
      [(20, 10, 2, [⟨2, true⟩, ⟨1, false⟩])] ∧
    (match tasksForUser c3Store 10 (.lower 1) with
      | .ok userTasks => userTasks.map Task._id
      | .error _ => []) = [20] ∧
    (match projectsForUser c3Store (.lower 2) with
      | .ok userProjects => userProjects.map Project._id
      | .error _ => [0]) = [] := by
  decide

/-! ## C11: the list of invitations -/

theorem invitationCompare_nan (a b : InvitationItem) : invitationCompare a b = none := by
  simp [invitationCompare, Dates.crete, newDate, JsDate.getTime, jsMinus]

theorem sortInsert_nan {α : Type} (comparefn : α → α → Option Int)
    (h : ∀ a b, comparefn a b = none) (x : α) (l : List α) :
    sortInsert comparefn x l = l ++ [x] := by
  induction l with
  | nil => rfl
  | cons y ys ih => simp [sortInsert, h, ih]

theorem jsSort_nan {α : Type} (comparefn : α → α → Option Int)
    (h : ∀ a b, comparefn a b = none) (l : List α) : jsSort comparefn l = l := by
  have key : ∀ (items sorted : List α),
      items.foldl (fun sorted x => sortInsert comparefn x sorted) sorted = sorted ++ items := by
    intro items
    induction items with
    | nil => intro sorted; simp
    | cons x xs ih =>
      intro sorted
      rw [List.foldl_cons, ih, sortInsert_nan comparefn h]
      simp
  simpa [jsSort] using key l []

/-- The array sent by the invitation handler is the pending task invitations followed
by the pending project invitations, each in the order of its collection: the sort
leaves the array as it is, since its comparator is always `NaN`. -/
theorem listInvitations_eq (s : Store) (id : Nat) :
    listInvitations s id =
      (200,
        (find (fun t => elemMatchPending id t.collaborators) s.tasks).map
            (fun task => { type := "task", doc := .inl task }) ++
          (find (fun p => elemMatchPending id p.collaborators) s.projects).map
            (fun project => { type := "project", doc := .inr project })) := by
  simp only [listInvitations]
  rw [jsSort_nan invitationCompare invitationCompare_nan]

/-- The content of the invitation list: an item is in it exactly when it is a task of
the store tagged "task", or a project of the store tagged "project", that holds an
entry of the user with accepted = false. -/
theorem listInvitations_content (s : Store) (id : Nat) (item : InvitationItem) :
    item ∈ (listInvitations s id).2 ↔
      ((∃ task ∈ s.tasks, item = { type := "task", doc := .inl task }) ∨
        (∃ project ∈ s.projects, item = { type := "project", doc := .inr project })) ∧
      ∃ c ∈ item.collaborators, c._id = id ∧ c.accepted = false := by
  rw [listInvitations_eq]
  simp only [find, elemMatchPending, List.mem_append, List.mem_map, List.mem_filter,
    List.any_eq_true, Bool.and_eq_true, beq_iff_eq, Bool.not_eq_true']
  constructor
  · rintro (⟨task, ⟨hmem, hany⟩, rfl⟩ | ⟨project, ⟨hmem, hany⟩, rfl⟩)
    · exact ⟨Or.inl ⟨task, hmem, rfl⟩, hany⟩
    · exact ⟨Or.inr ⟨project, hmem, rfl⟩, hany⟩
  · rintro ⟨(⟨task, hmem, rfl⟩ | ⟨project, hmem, rfl⟩), hany⟩
    · exact Or.inl ⟨task, ⟨hmem, hany⟩, rfl⟩
    · exact Or.inr ⟨project, ⟨hmem, hany⟩, rfl⟩

/-- C11, the failing input: in `c11Store` user 2 is invited to task 20 (created at 3),
project 10 (created at 1) and project 11 (created at 5). listInvitations(2) returns
them in that order, tasks first, so project 10 comes before the later project 11 and
the sequence is not descending in creation time; the same sort with the comparator on
`create` gives the descending order 11, 20, 10. -/
theorem listInvitations_unsorted :
    (listInvitations c11Store 2).2.map (fun item => (item.type, item.docId, item.dates.create)) =
      [("task", 20, .valid 3), ("project", 10, .valid 1), ("project", 11, .valid 5)] ∧
    (jsSort createdDescending (listInvitations c11Store 2).2).map
        (fun item => (item.type, item.docId, item.dates.create)) =
      [("project", 11, .valid 5), ("task", 20, .valid 3), ("project", 10, .valid 1)] := by
  decide

/-! ## C12: the window of a project -/

/-- The creation of a project whose start is after its end is rejected, and the store
is left as it was. -/
theorem createProject_rejects_inverted (s : Store) (newId : Nat) (now : Int)
    (body : NewProject) (a b : Int) (hstart : body.start = some (.valid a))
    (hend : body.end_ = some (.valid b)) (hfields : body.title ≠ "" ∧ body.description ≠ "" ∧
      body.label ≠ "") (hab : b < a) :
    createProject s newId now body = (⟨400, "Start date cannot be after end date"⟩, s) := by
  obtain ⟨h1, h2, h3⟩ := hfields
  simp [createProject, hstart, hend, h1, h2, h3, jsGt, JsDate.getTime, hab]

/-- A created project has its start at or before its end, when both are valid dates. -/
theorem createProject_window (s : Store) (newId : Nat) (now : Int) (body : NewProject)
    (h : (createProject s newId now body).1 = ⟨201, "Project created successfully"⟩) :
    ∃ project, (createProject s newId now body).2.projects = s.projects ++ [project] ∧
      project._id = newId ∧
      ∀ a b, project.dates.start = .valid a → project.dates.end_ = .valid b → a ≤ b := by
  unfold createProject at h ⊢
  split at h
  · rename_i start end_ hstart hend
    split at h
    · simp at h
    · split at h
      · simp at h
      · rename_i hgt
        split at h
        · simp at h
        · simp only [hstart, hend]
          rw [if_neg (by assumption), if_neg hgt, if_neg (by assumption)]
          refine ⟨_, rfl, rfl, ?_⟩
          intro a b ha hb
          simp only at ha hb
          subst ha hb
          simpa [jsGt, JsDate.getTime] using hgt
  · simp at h

/-- C12, the failing input: user 1 creates project 10 with the window 0 to 1 (answer
201) and no task exists; setDate(10, start, 5) answers 200 "Date updated successfully"
and the stored window is 5 to 1, a reachable state with start after end. -/
theorem setDate_breaks_window :
    (createProject c1Initial 10 0
      { title := "t", description := "d", start := some (.valid 0), end_ := some (.valid 1),
        label := "l", creatorId := 1, collaborators := [] }).1 =
      ⟨201, "Project created successfully"⟩ ∧
    (c1Create.run c1Initial).projects.map (fun p => (p._id, p.dates.start, p.dates.end_)) =
      [(10, .valid 0, .valid 1)] ∧
    (setDate (c1Create.run c1Initial) 10 "start" (some (.valid 5))).1 =
      ⟨200, "Date updated successfully"⟩ ∧
    (c12SetStart.run (c1Create.run c1Initial)).projects.map
        (fun p => (p._id, p.dates.start, p.dates.end_)) =
      [(10, .valid 5, .valid 1)] ∧
    Reachable (c12SetStart.run (c1Create.run c1Initial)) :=
  ⟨by decide, by decide, by decide, by decide,
    Reachable.step _ (Reachable.step _ (Reachable.init _ _))⟩

end ProcrastInHate
